import Mathlib

/-!
Verification development for the AIM inference-infrastructure repository.

Shallow embedding of the parts of the code base that the checked
properties are about:

* `guardrails/core/guardrail_service.py` — `GuardrailService.check_request`
  and `GuardrailService.check_response`;
* `guardrails/traffic/rate_limiter.py` — `RateLimiter.check_rate_limit`;
* `runtime/qos/qos_manager.py` — `RequestQueue` and
  `QoSManager.submit_request`;
* `runtime/model_sizing.py` — `ModelSizingConfig.estimate_model_size`;
* `runtime/rocm_partitioner_real.py` — `ROCmPartitionerReal`;
* `runtime/model_scheduler.py` — `ModelScheduler.schedule_model` and
  `ModelScheduler.unschedule_model`.

Modelling conventions: Python `float` quantities are modelled as `ℚ`
(the properties checked here are decided by factors far larger than any
floating-point rounding); Python `int` as `Int`/`Nat`; Python dicts as
association lists in insertion order; a Python method that mutates
`self` becomes a function from the state to (result × new state); a
classifier invocation that may raise becomes a function returning
`Option` (with `none` for the raised-exception path).  Logging and
metrics calls are side-effect-free and are omitted.
-/

namespace AIM

/-- Python `int(q)` for a rational: truncation toward zero. -/
def pyInt (q : ℚ) : Int :=
  Int.tdiv q.num (q.den : Int)

/-- One GiB (`1024 ** 3`), the byte conversion factor used throughout the
runtime sources. -/
def GiB : ℚ := 1073741824

/-! ## Guardrail service (`guardrails/core/guardrail_service.py`) -/

namespace Guardrails

/-- `GuardrailType` enum (guardrail_service.py lines 35-43). -/
inductive GuardrailType where
  | toxicity
  | pii
  | prompt_injection
  | policy_compliance
  | secrets
  | all_in_one
  | custom
deriving DecidableEq, Repr

/-- `GuardrailAction` enum (guardrail_service.py lines 46-52). -/
inductive GuardrailAction where
  | allow
  | block
  | allow_with_warning
  | redact
  | modify
deriving DecidableEq, Repr

/-- `GuardrailResult` dataclass (guardrail_service.py lines 55-64).  The
untyped `details` dict is omitted: no checked property reads it. -/
structure GuardrailResult where
  passed : Bool
  guardrail_type : GuardrailType
  action : GuardrailAction
  confidence : ℚ
  message : String
  redacted_content : Option String := none
deriving Repr, DecidableEq

/-- `GuardrailPolicy` dataclass (guardrail_service.py lines 67-74).  The
untyped `custom_rules` dict is omitted: no checked property reads it. -/
structure GuardrailPolicy where
  guardrail_type : GuardrailType
  enabled : Bool := true
  action : GuardrailAction := GuardrailAction.block
  threshold : ℚ := 7/10
deriving Repr, DecidableEq

/-- A classifier's `check(content, threshold)` method.  `none` models the
raised-exception path that `check_request`/`check_response` catch. -/
def Classifier : Type := String → ℚ → Option GuardrailResult

/-- The fields of `GuardrailService` that `check_request` / `check_response`
read: the policy list, the `self.guardrails` dict (as a lookup function),
the optional `all_in_one_judge`, the configuration's pre and post filter
flags, and the latency-budget policy filter.  `latency_filter = some f`
models the `get_optimized_models` selection of lines 270-278 (`f t` is
`optimized_models.get(t) is not None`); `none` models the paths of lines
279-282 where every enabled policy stays active. -/
structure GuardrailService where
  policies : List GuardrailPolicy
  guardrails : GuardrailType → Option Classifier
  all_in_one_judge : Option Classifier := none
  pre_filter : GuardrailType → Bool
  post_filter : GuardrailType → Bool
  latency_filter : Option (GuardrailType → Bool) := none

/-- A record of one classifier invocation inside a check: the policy it ran
under, the exact content string passed to `guardrail.check`, and the
result (`none` if the classifier raised). -/
structure Invocation where
  policy : GuardrailPolicy
  content : String
  output : Option GuardrailResult
deriving DecidableEq

/-- Loop state of `check_request` / `check_response`: the current content
(`prompt` resp. `response`), the `allowed` flag, the accumulated
`results`, and the ghost trace of classifier invocations. -/
structure CheckState where
  content : String
  allowed : Bool
  results : List GuardrailResult
  invocations : List Invocation

/-- Classifier selection (guardrail_service.py lines 289-293): the
all-in-one judge when the policy is `ALL_IN_ONE` and a judge exists,
otherwise `self.guardrails.get(policy.guardrail_type)`. -/
def guardrailFor (svc : GuardrailService) (p : GuardrailPolicy) : Option Classifier :=
  if p.guardrail_type = GuardrailType.all_in_one ∧ svc.all_in_one_judge.isSome then
    svc.all_in_one_judge
  else
    svc.guardrails p.guardrail_type

/-- The `GuardrailResult` appended on the exception path
(guardrail_service.py lines 346-352 and 440-446). -/
def errorResult (p : GuardrailPolicy) : GuardrailResult :=
  { passed := true
    guardrail_type := p.guardrail_type
    action := p.action
    confidence := 0
    message := "Error"
    redacted_content := none }

/-- One iteration of the `check_request` policy loop
(guardrail_service.py lines 284-352). -/
def requestStep (svc : GuardrailService) (s : CheckState) (p : GuardrailPolicy) :
    CheckState :=
  if ¬ svc.pre_filter p.guardrail_type then s
  else
    match guardrailFor svc p with
    | none => s
    | some g =>
      match g s.content p.threshold with
      | some r0 =>
        let r := { r0 with guardrail_type := p.guardrail_type, action := p.action }
        let s1 : CheckState :=
          { s with
            results := s.results ++ [r]
            invocations := s.invocations ++ [⟨p, s.content, some r⟩] }
        if r.passed then s1
        else
          match p.action with
          | GuardrailAction.block => { s1 with allowed := false }
          | GuardrailAction.redact =>
            match r.redacted_content with
            | some rc => { s1 with content := rc }
            | none => s1
          | _ => s1
      | none =>
        { s with
          results := s.results ++ [errorResult p]
          invocations := s.invocations ++ [⟨p, s.content, none⟩] }

/-- `active_policies` of `check_request` (guardrail_service.py lines
269-282): the enabled policies, thinned by the latency-budget filter when
one applies. -/
def active_policies (svc : GuardrailService) : List GuardrailPolicy :=
  svc.policies.filter fun p =>
    p.enabled && (match svc.latency_filter with
                  | some f => f p.guardrail_type
                  | none => true)

/-- `GuardrailService.check_request`, with the ghost invocation trace
kept in the final state. -/
def checkRequestRun (svc : GuardrailService) (prompt : String) : CheckState :=
  (active_policies svc).foldl (requestStep svc) ⟨prompt, true, [], []⟩

/-- `GuardrailService.check_request` (guardrail_service.py lines 244-367):
returns `(allowed, results)`. -/
def check_request (svc : GuardrailService) (prompt : String) :
    Bool × List GuardrailResult :=
  ((checkRequestRun svc prompt).allowed, (checkRequestRun svc prompt).results)

/-- One iteration of the `check_response` policy loop
(guardrail_service.py lines 391-446).  Note the source's duplicated
lookup: after selecting the judge or the dict entry (lines 400-406) it
unconditionally re-fetches `self.guardrails.get(policy.guardrail_type)`
(lines 408-410) and invokes that; and the loop applies no action other
than `BLOCK` — in particular it never rewrites the content. -/
def responseStep (svc : GuardrailService) (s : CheckState) (p : GuardrailPolicy) :
    CheckState :=
  if ¬ p.enabled then s
  else if ¬ svc.post_filter p.guardrail_type then s
  else if (guardrailFor svc p).isNone then s
  else
    match svc.guardrails p.guardrail_type with
    | none => s
    | some g =>
      match g s.content p.threshold with
      | some r0 =>
        let r := { r0 with guardrail_type := p.guardrail_type, action := p.action }
        let s1 : CheckState :=
          { s with
            results := s.results ++ [r]
            invocations := s.invocations ++ [⟨p, s.content, some r⟩] }
        if r.passed then s1
        else
          match p.action with
          | GuardrailAction.block => { s1 with allowed := false }
          | _ => s1
      | none =>
        { s with
          results := s.results ++ [errorResult p]
          invocations := s.invocations ++ [⟨p, s.content, none⟩] }

/-- `GuardrailService.check_response`, with the ghost invocation trace
kept in the final state. -/
def checkResponseRun (svc : GuardrailService) (response : String) : CheckState :=
  svc.policies.foldl (responseStep svc) ⟨response, true, [], []⟩

/-- `GuardrailService.check_response` (guardrail_service.py lines
369-448): returns `(allowed, results)`. -/
def check_response (svc : GuardrailService) (response : String) :
    Bool × List GuardrailResult :=
  ((checkResponseRun svc response).allowed, (checkResponseRun svc response).results)

/-- The content rewriting that one invocation of the `check_request` loop
performs: when the classifier failed under a `REDACT` policy and supplied
redacted content, the loop continues with that redacted content
(guardrail_service.py lines 340-342); in every other case the content is
left as it was. -/
def redactUpdate (inv : Invocation) : String :=
  match inv.output with
  | some r =>
    if r.passed then inv.content
    else
      match inv.policy.action, r.redacted_content with
      | GuardrailAction.redact, some rc => rc
      | _, _ => inv.content
  | none => inv.content

/-- Invariant threading the content through the invocation trace: the
trace is chained by `redactUpdate` and the current content is the last
invocation's updated content. -/
def traceOk (s : CheckState) : Prop :=
  List.Chain' (fun a b => b.content = redactUpdate a) s.invocations ∧
  ∀ lastInv ∈ s.invocations.getLast?, s.content = redactUpdate lastInv

/-! Concrete fixtures used by the closed witness and counterexample
theorems about the guardrail service. -/

/-- The placeholder string the fixture PII classifier redacts to. -/
def redactedStr : String := "[REDACTED]"

/-- A toxicity classifier that fails (confidence above any threshold). -/
def toxFailClf : Classifier := fun _ _ =>
  some { passed := false, guardrail_type := GuardrailType.toxicity,
         action := GuardrailAction.allow, confidence := 1, message := "toxic" }

/-- A PII classifier that passes. -/
def piiPassClf : Classifier := fun _ _ =>
  some { passed := true, guardrail_type := GuardrailType.pii,
         action := GuardrailAction.allow, confidence := 0, message := "clean" }

/-- A PII classifier that fails and supplies redacted content. -/
def piiRedactClf : Classifier := fun _ _ =>
  some { passed := false, guardrail_type := GuardrailType.pii,
         action := GuardrailAction.allow, confidence := 1, message := "pii",
         redacted_content := some redactedStr }

/-- A toxicity classifier that passes. -/
def toxPassClf : Classifier := fun _ _ =>
  some { passed := true, guardrail_type := GuardrailType.toxicity,
         action := GuardrailAction.allow, confidence := 0, message := "ok" }

/-- Blocking toxicity policy (integral threshold, so that concrete runs
reduce in the kernel). -/
def polToxBlock : GuardrailPolicy :=
  { guardrail_type := GuardrailType.toxicity, enabled := true,
    action := GuardrailAction.block, threshold := 1 }

/-- Allow-action PII policy. -/
def polPiiAllow : GuardrailPolicy :=
  { guardrail_type := GuardrailType.pii, enabled := true,
    action := GuardrailAction.allow, threshold := 1 }

/-- Redact-action PII policy. -/
def polPiiRedact : GuardrailPolicy :=
  { guardrail_type := GuardrailType.pii, enabled := true,
    action := GuardrailAction.redact, threshold := 1 }

/-- Service with a failing blocking toxicity policy next to a passing
PII policy. -/
def svcBlock : GuardrailService :=
  { policies := [polToxBlock, polPiiAllow]
    guardrails := fun t =>
      match t with
      | GuardrailType.toxicity => some toxFailClf
      | GuardrailType.pii => some piiPassClf
      | _ => none
    all_in_one_judge := none
    pre_filter := fun _ => true
    post_filter := fun _ => true
    latency_filter := none }

/-- Service with a firing redact PII policy followed by a passing
toxicity policy. -/
def svcRedact : GuardrailService :=
  { policies := [polPiiRedact, polToxBlock]
    guardrails := fun t =>
      match t with
      | GuardrailType.pii => some piiRedactClf
      | GuardrailType.toxicity => some toxPassClf
      | _ => none
    all_in_one_judge := none
    pre_filter := fun _ => true
    post_filter := fun _ => true
    latency_filter := none }

/-- The content fed to the fixture checks. -/
def fixtureContent : String := "my email is john.doe at example.com"

/-- The action-adjusted result recorded for the failing blocking toxicity
classifier of `svcBlock`. -/
def rToxFailAdj : GuardrailResult :=
  { passed := false, guardrail_type := GuardrailType.toxicity,
    action := GuardrailAction.block, confidence := 1, message := "toxic" }

/-- The action-adjusted result recorded for the firing redact PII
classifier of `svcRedact`. -/
def rPiiRedactAdj : GuardrailResult :=
  { passed := false, guardrail_type := GuardrailType.pii,
    action := GuardrailAction.redact, confidence := 1, message := "pii",
    redacted_content := some redactedStr }

/-- The action-adjusted result recorded for the passing toxicity
classifier of `svcRedact`. -/
def rToxPassAdj : GuardrailResult :=
  { passed := true, guardrail_type := GuardrailType.toxicity,
    action := GuardrailAction.block, confidence := 0, message := "ok" }

/-- The toxicity invocation record produced by `svcBlock` runs. -/
def invToxFail : Invocation :=
  ⟨polToxBlock, fixtureContent, some rToxFailAdj⟩

/-- The second (toxicity) invocation record of the `svcRedact` response
run: it still sees the original response. -/
def invToxAfterRedact : Invocation :=
  ⟨polToxBlock, fixtureContent, some rToxPassAdj⟩

end Guardrails

/-! ## QoS manager (`runtime/qos/qos_manager.py`) -/

namespace Qos

/-- `QoSLevel` enum (qos_manager.py lines 19-23). -/
inductive QoSLevel where
  | low
  | medium
  | high
deriving DecidableEq, Repr

/-- `Request` dataclass (qos_manager.py lines 26-36). -/
structure Request where
  request_id : String
  model_id : String
  partition_id : Int
  priority : QoSLevel
  timestamp : ℚ
  timeout : Option ℚ := none
  min_guarantee : Option ℚ := none
  max_limit : Option ℚ := none
deriving DecidableEq, Repr

/-- `RequestQueue` (qos_manager.py lines 48-57): one FIFO deque per
priority level. -/
structure RequestQueue where
  high : List Request
  medium : List Request
  low : List Request
deriving DecidableEq, Repr

/-- The empty `RequestQueue` built by `RequestQueue.__init__`. -/
def RequestQueue.empty : RequestQueue := ⟨[], [], []⟩

/-- `RequestQueue.enqueue` (qos_manager.py lines 59-62): append to the
deque of the request's priority. -/
def RequestQueue.enqueue (q : RequestQueue) (request : Request) : RequestQueue :=
  match request.priority with
  | QoSLevel.high => { q with high := q.high ++ [request] }
  | QoSLevel.medium => { q with medium := q.medium ++ [request] }
  | QoSLevel.low => { q with low := q.low ++ [request] }

/-- `RequestQueue.dequeue` (qos_manager.py lines 64-71): pop from the
first non-empty deque in the order HIGH, MEDIUM, LOW. -/
def RequestQueue.dequeue (q : RequestQueue) : Option Request × RequestQueue :=
  match q.high with
  | r :: rest => (some r, { q with high := rest })
  | [] =>
    match q.medium with
    | r :: rest => (some r, { q with medium := rest })
    | [] =>
      match q.low with
      | r :: rest => (some r, { q with low := rest })
      | [] => (none, q)

/-- `RequestQueue.size` with no priority argument (qos_manager.py lines
73-78): total length over all three deques. -/
def RequestQueue.size (q : RequestQueue) : Nat :=
  q.high.length + q.medium.length + q.low.length

/-- The fields of `QoSManager` that `submit_request` reads: the queue and
the `resource_limits` dict (`slos`, `request_stats` and
`resource_guarantees` are not consulted by the checked operations and are
omitted). -/
structure QoSManager where
  request_queue : RequestQueue
  resource_limits : List (String × ℚ)
deriving Repr

/-- `QoSManager.submit_request` (qos_manager.py lines 147-169): only when
the request's model has a registered resource limit is the queue length
checked, and the request is rejected when it exceeds the hard-coded 100;
otherwise the request is enqueued and accepted. -/
def QoSManager.submit_request (m : QoSManager) (request : Request) :
    Bool × QoSManager :=
  if (m.resource_limits.lookup request.model_id).isSome then
    if m.request_queue.size > 100 then
      (false, m)
    else
      (true, { m with request_queue := m.request_queue.enqueue request })
  else
    (true, { m with request_queue := m.request_queue.enqueue request })

/-! The stamped mirror of `RequestQueue`, used to state the stable-merge
ordering property: each element carries a ghost arrival index assigned in
enqueue order.  `eraseStampsQueue_enqueue` and `eraseStampsQueue_dequeue`
below prove it runs exactly the `RequestQueue` algorithm. -/

/-- `RequestQueue` elements paired with their ghost arrival index. -/
structure StampedQueue where
  high : List (Nat × Request)
  medium : List (Nat × Request)
  low : List (Nat × Request)
deriving DecidableEq, Repr

/-- `RequestQueue.enqueue` on stamped elements. -/
def StampedQueue.enqueue (q : StampedQueue) (x : Nat × Request) : StampedQueue :=
  match x.2.priority with
  | QoSLevel.high => { q with high := q.high ++ [x] }
  | QoSLevel.medium => { q with medium := q.medium ++ [x] }
  | QoSLevel.low => { q with low := q.low ++ [x] }

/-- `RequestQueue.dequeue` on stamped elements. -/
def StampedQueue.dequeue (q : StampedQueue) : Option (Nat × Request) × StampedQueue :=
  match q.high with
  | r :: rest => (some r, { q with high := rest })
  | [] =>
    match q.medium with
    | r :: rest => (some r, { q with medium := rest })
    | [] =>
      match q.low with
      | r :: rest => (some r, { q with low := rest })
      | [] => (none, q)

/-- Forget the ghost stamps. -/
def eraseStampsQueue (q : StampedQueue) : RequestQueue :=
  ⟨q.high.map Prod.snd, q.medium.map Prod.snd, q.low.map Prod.snd⟩

/-- One client operation on the queue. -/
inductive QOp where
  | enq (r : Request)
  | deq
deriving DecidableEq, Repr

/-- Trace state: the stamped queue plus the next arrival index. -/
structure TraceState where
  q : StampedQueue
  counter : Nat
deriving DecidableEq, Repr

/-- Run one operation: an enqueue stamps the request with the current
arrival index; a dequeue pops as `RequestQueue.dequeue` does. -/
def stepOp (s : TraceState) : QOp → TraceState
  | QOp.enq r => ⟨s.q.enqueue (s.counter, r), s.counter + 1⟩
  | QOp.deq => ⟨(s.q.dequeue).2, s.counter⟩

/-- Run an arbitrary interleaving of enqueues and dequeues from the empty
queue. -/
def runOps (ops : List QOp) : TraceState :=
  ops.foldl stepOp ⟨⟨[], [], []⟩, 0⟩

/-- All queued (stamped) requests, in band order. -/
def waiting (q : StampedQueue) : List (Nat × Request) :=
  q.high ++ q.medium ++ q.low

/-- Priority rank in the dequeue scan order (smaller is served first). -/
def rank : QoSLevel → Nat
  | QoSLevel.high => 0
  | QoSLevel.medium => 1
  | QoSLevel.low => 2

/-- Well-formedness of one band: stamps strictly increase along the deque,
every element has the band's priority, and every stamp is below the
arrival counter. -/
def bandInv (c : Nat) (l : QoSLevel) (xs : List (Nat × Request)) : Prop :=
  List.Pairwise (fun a b => a.1 < b.1) xs ∧
  ∀ x ∈ xs, x.2.priority = l ∧ x.1 < c

/-- Well-formedness of a trace state. -/
def queueInv (s : TraceState) : Prop :=
  bandInv s.counter QoSLevel.high s.q.high ∧
  bandInv s.counter QoSLevel.medium s.q.medium ∧
  bandInv s.counter QoSLevel.low s.q.low

/-! Fixtures for the QoS claims. -/

/-- A low-priority fixture request. -/
def rLowFix : Request :=
  { request_id := "r-low", model_id := "m1", partition_id := 0,
    priority := QoSLevel.low, timestamp := 0 }

/-- A high-priority fixture request. -/
def rHighFix : Request :=
  { request_id := "r-high", model_id := "m1", partition_id := 0,
    priority := QoSLevel.high, timestamp := 0 }

/-- Enqueue a low-priority request, then a high-priority one. -/
def opsFix : List QOp := [QOp.enq rLowFix, QOp.enq rHighFix]

/-- A manager whose queue already holds 101 requests, while `m1` has no
registered resource limit. -/
def satManager : QoSManager :=
  { request_queue := ⟨[], [], List.replicate 101 rLowFix⟩
    resource_limits := [] }

/-- A manager whose queue already holds 101 requests of a model with a
registered resource limit. -/
def satManagerLim : QoSManager :=
  { request_queue := ⟨[], [], List.replicate 101 rLowFix⟩
    resource_limits := [("m1", 1/2)] }

end Qos

/-! ## Traffic rate limiter (`guardrails/traffic/rate_limiter.py`) -/

namespace Traffic

/-- The three sliding-window granularities (the dict keys `minute`,
`hour`, `day` of `request_counts`). -/
inductive Window where
  | minute
  | hour
  | day
deriving DecidableEq, Repr

/-- `RateLimitConfig` dataclass (rate_limiter.py lines 17-28). -/
structure RateLimitConfig where
  requests_per_minute : Nat := 60
  requests_per_hour : Nat := 1000
  requests_per_day : Nat := 10000
  max_context_length : Nat := 8192
  max_upload_size_mb : ℚ := 10
  allowed_geos : Option (List String) := none
  business_hours_only : Bool := false
  business_hours_start : Nat := 9
  business_hours_end : Nat := 17

/-- `RateLimiter` state (rate_limiter.py lines 31-45): the config, the
per-identity counter rings (a defaultdict, so modelled as a total
function defaulting to `[]`), and the blocked set. -/
structure RateLimiter where
  config : RateLimitConfig
  request_counts : String → Window → List ℚ
  blocked_users : List String

/-- The purge horizon of each window (`now - t < 60 / 3600 / 86400`,
rate_limiter.py lines 118-136). -/
def windowHorizon : Window → ℚ
  | Window.minute => 60
  | Window.hour => 3600
  | Window.day => 86400

/-- The per-window cap (rate_limiter.py lines 96-109). -/
def windowLimit (c : RateLimitConfig) : Window → Nat
  | Window.minute => c.requests_per_minute
  | Window.hour => c.requests_per_hour
  | Window.day => c.requests_per_day

/-- Drop the entries of one ring that are older than the window's
horizon. -/
def purgeRing (now : ℚ) (w : Window) (ring : List ℚ) : List ℚ :=
  ring.filter fun t => now - t < windowHorizon w

/-- `RateLimiter._clean_old_entries` (rate_limiter.py lines 118-136):
purge the identifier's three rings. -/
def clean_old_entries (st : RateLimiter) (identifier : String) (now : ℚ) :
    RateLimiter :=
  { st with request_counts := fun id w =>
      if id = identifier then purgeRing now w (st.request_counts id w)
      else st.request_counts id w }

/-- The appends of rate_limiter.py lines 111-114: record `now` in the
identifier's three rings. -/
def appendNow (st : RateLimiter) (identifier : String) (now : ℚ) :
    RateLimiter :=
  { st with request_counts := fun id w =>
      if id = identifier then st.request_counts id w ++ [now]
      else st.request_counts id w }

/-- The geo gate of rate_limiter.py line 84, with Python truthiness:
`allowed_geos` must be a non-empty list and `geo` a non-empty string. -/
def geoDenied (c : RateLimitConfig) (geo : Option String) : Bool :=
  match c.allowed_geos, geo with
  | some gs, some g => !gs.isEmpty && !(g == "") && !(gs.contains g)
  | _, _ => false

/-- `identifier = api_key or user_id` (rate_limiter.py line 68), with
Python truthiness: an absent or empty `api_key` falls back to
`user_id`. -/
def identifierOf (user_id : String) (api_key : Option String) : String :=
  match api_key with
  | some k => if k = "" then user_id else k
  | none => user_id

/-- `RateLimiter.check_rate_limit` (rate_limiter.py lines 47-116).  The
wall-clock reads `time.time()` and `datetime.now().hour` are passed in as
`now` and `current_hour`. -/
def check_rate_limit (st : RateLimiter) (user_id : String)
    (api_key : Option String) (context_length : Nat) (upload_size_mb : ℚ)
    (geo : Option String) (now : ℚ) (current_hour : Nat) :
    (Bool × String) × RateLimiter :=
  if identifierOf user_id api_key ∈ st.blocked_users then
    ((false, "User is blocked"), st)
  else if context_length > st.config.max_context_length then
    ((false, "Context length exceeds limit"), st)
  else if upload_size_mb > st.config.max_upload_size_mb then
    ((false, "Upload size exceeds limit"), st)
  else if geoDenied st.config geo then
    ((false, "Access not allowed from geo"), st)
  else if st.config.business_hours_only ∧
      ¬ (st.config.business_hours_start ≤ current_hour ∧
         current_hour < st.config.business_hours_end) then
    ((false, "Access only allowed during business hours"), st)
  else if ((clean_old_entries st (identifierOf user_id api_key) now).request_counts
      (identifierOf user_id api_key) Window.minute).length ≥
      st.config.requests_per_minute then
    ((false, "Rate limit exceeded: per minute"),
     clean_old_entries st (identifierOf user_id api_key) now)
  else if ((clean_old_entries st (identifierOf user_id api_key) now).request_counts
      (identifierOf user_id api_key) Window.hour).length ≥
      st.config.requests_per_hour then
    ((false, "Rate limit exceeded: per hour"),
     clean_old_entries st (identifierOf user_id api_key) now)
  else if ((clean_old_entries st (identifierOf user_id api_key) now).request_counts
      (identifierOf user_id api_key) Window.day).length ≥
      st.config.requests_per_day then
    ((false, "Rate limit exceeded: per day"),
     clean_old_entries st (identifierOf user_id api_key) now)
  else
    ((true, "Allowed"),
     appendNow (clean_old_entries st (identifierOf user_id api_key) now)
       (identifierOf user_id api_key) now)

/-- The blocked fixture identity. -/
def uid1 : String := "u1"

/-- Fixture: a limiter that blocks the identity `u1`, with empty rings. -/
def blockedLimiter : RateLimiter :=
  { config := {}
    request_counts := fun _ _ => []
    blocked_users := [uid1] }

end Traffic

/-! ## Model sizing, real partitioner and scheduler
(`runtime/model_sizing.py`, `runtime/rocm_partitioner_real.py`,
`runtime/model_scheduler.py`) -/

namespace Runtime

/-- Python dict assignment `d[k] = v` on an insertion-ordered association
list: overwrite in place when the key exists, append otherwise. -/
def assocInsert {α β : Type} [DecidableEq α] (l : List (α × β)) (k : α) (v : β) :
    List (α × β) :=
  if l.any fun kv => decide (kv.1 = k) then
    l.map fun kv => if kv.1 = k then (k, v) else kv
  else
    l ++ [(k, v)]

/-- `str.upper()` over the characters (model_sizing.py line 170 applies it
to ASCII GPU names). -/
def pyToUpper (s : String) : String :=
  String.mk (s.data.map Char.toUpper)

/-- `key.split('/')[-1]`: the characters after the last slash. -/
def lastComponentAux : List Char → List Char → List Char
  | [], acc => acc.reverse
  | c :: cs, acc =>
    if c = '/' then lastComponentAux cs []
    else lastComponentAux cs (c :: acc)

/-- `key.split('/')[-1]` (model_sizing.py line 93). -/
def lastComponent (s : String) : String :=
  String.mk (lastComponentAux s.data [])

/-- `model_id.endswith(x)` over the character lists (kernel-computable
rendering of Python `str.endswith`). -/
def pyEndsWith (s x : String) : Bool :=
  List.isSuffixOf x.data s.data

/-- `ModelSizeInfo` (model_sizing.py lines 14-22): the fields
`estimate_model_size` reads.  `parameters`, `quantization` and
`recommended_partition_gb` are carried by the dataclass but never read by
the operations checked here and are omitted. -/
structure ModelSizeEntry where
  memory_gb : ℚ
  precision_memory : Option (List (String × ℚ)) := none
deriving DecidableEq, Repr

/-- `GPUSpec` (model_sizing.py lines 25-30); `recommended_partitions` is
never read by the checked operations and is omitted. -/
structure GPUSpec where
  total_memory_gb : ℚ
  compute_units : Nat
deriving DecidableEq, Repr

/-- The `partition_config` section of the sizing YAML (only these keys
are read by the embedded operations, via `.get` with defaults). -/
structure PartitionConfig where
  min_partition_gb : Option ℚ := none
  system_overhead_gb : Option ℚ := none
deriving DecidableEq, Repr

/-- `ModelSizingConfig` (model_sizing.py lines 33-75): the loaded YAML
content, as insertion-ordered association lists. -/
structure ModelSizingConfig where
  models : List (String × ModelSizeEntry)
  gpu_specs : List (String × GPUSpec)
  partition_config : PartitionConfig
deriving DecidableEq, Repr

/-- `ModelSizingConfig.get_model_size` (model_sizing.py lines 77-96):
exact key match first, then the first entry whose key's last path
component is a suffix of the queried id. -/
def get_model_size (cfg : ModelSizingConfig) (model_id : String) :
    Option ModelSizeEntry :=
  match cfg.models.find? fun kv => kv.1 = model_id with
  | some kv => some kv.2
  | none =>
    match cfg.models.find? fun kv => pyEndsWith model_id (lastComponent kv.1) with
    | some kv => some kv.2
    | none => none

/-- `ModelSizingConfig.estimate_model_size` (model_sizing.py lines
98-141).  Every call site embedded here (the scheduler and the real
partitioner) leaves `parameters=None`, so the parameter-count branch of
lines 124-138 is dead code for them and is elided; with no entry the
documented 40 GB fallback applies. -/
def estimate_model_size (cfg : ModelSizingConfig) (model_id : String)
    (precision : String) : ℚ :=
  match get_model_size cfg model_id with
  | some info =>
    match info.precision_memory with
    | some pm =>
      match pm.lookup precision with
      | some v => v
      | none => info.memory_gb
    | none => info.memory_gb
  | none => 40

/-- `ModelSizingConfig.get_gpu_spec` (model_sizing.py lines 160-170). -/
def get_gpu_spec (cfg : ModelSizingConfig) (gpu_name : String) : Option GPUSpec :=
  cfg.gpu_specs.lookup (pyToUpper gpu_name)

/-- `ComputePartitionMode` enum (rocm_partitioner_real.py lines 31-35). -/
inductive ComputePartitionMode where
  | SPX
  | CPX
  | TPX
deriving DecidableEq, Repr

/-- The `.value` string of a compute mode. -/
def ComputePartitionMode.value : ComputePartitionMode → String
  | ComputePartitionMode.SPX => "SPX"
  | ComputePartitionMode.CPX => "CPX"
  | ComputePartitionMode.TPX => "TPX"

/-- `ComputePartitionMode(string)`: parse, `none` for `ValueError`. -/
def parseComputeMode (s : String) : Option ComputePartitionMode :=
  if s = "SPX" then some ComputePartitionMode.SPX
  else if s = "CPX" then some ComputePartitionMode.CPX
  else if s = "TPX" then some ComputePartitionMode.TPX
  else none

/-- `MemoryPartitionMode` enum (rocm_partitioner_real.py lines 38-41). -/
inductive MemoryPartitionMode where
  | NPS1
  | NPS4
deriving DecidableEq, Repr

/-- The `.value` string of a memory mode. -/
def MemoryPartitionMode.value : MemoryPartitionMode → String
  | MemoryPartitionMode.NPS1 => "NPS1"
  | MemoryPartitionMode.NPS4 => "NPS4"

/-- `MemoryPartitionMode(string)`: parse, `none` for `ValueError`. -/
def parseMemoryMode (s : String) : Option MemoryPartitionMode :=
  if s = "NPS1" then some MemoryPartitionMode.NPS1
  else if s = "NPS4" then some MemoryPartitionMode.NPS4
  else none

/-- `MemoryPartition` dataclass (rocm_partitioner_real.py lines 44-57). -/
structure MemoryPartition where
  partition_id : Nat
  vf_id : Option Nat := none
  xcd_id : Option Nat := none
  size_bytes : Int := 0
  allocated_bytes : Int := 0
  models : List String := []
  is_active : Bool := true
deriving DecidableEq, Repr

/-- The `amd-smi` tooling the partitioner shells out to, modelled as the
spec's abstract `DeviceController`: the current compute and memory
partition modes, whether `set` commands succeed (the subprocess
returncode), and the log of commands issued.  The output parsing of
rocm_partitioner_real.py lines 129-174 is modelled as reading the
controller's modes directly. -/
structure DeviceController where
  compute : Option String
  memory : Option String
  set_ok : Bool
  log : List String
deriving DecidableEq, Repr

/-- `ROCmPartitionerReal` state (rocm_partitioner_real.py lines 60-90).
`_initialized` is spelled `initialized`; `rocm_available` and `gpu_name`
are never read by the checked operations and are omitted. -/
structure ROCmPartitionerReal where
  gpu_id : Nat
  sizing_config : ModelSizingConfig
  partitions : List (Nat × MemoryPartition)
  initialized : Bool
  compute_mode : Option ComputePartitionMode
  memory_mode : Option MemoryPartitionMode
  amd_smi_available : Bool
  device : DeviceController
deriving DecidableEq, Repr

/-- `get_current_partition_mode` (rocm_partitioner_real.py lines
119-177): query the tool (logged) and report the current modes. -/
def get_current_partition_mode (p : ROCmPartitionerReal) :
    (Option String × Option String) × ROCmPartitionerReal :=
  if ¬ p.amd_smi_available then ((none, none), p)
  else
    ((p.device.compute, p.device.memory),
     { p with device := { p.device with log := p.device.log ++ ["query-partition"] } })

/-- `set_compute_partition_mode` (rocm_partitioner_real.py lines
179-242): succeed without a `set` command when the device already is in
the requested mode; otherwise issue the command; on command failure fall
back to adopting the device's current mode when it parses. -/
def set_compute_partition_mode (p : ROCmPartitionerReal)
    (mode : ComputePartitionMode) : Bool × ROCmPartitionerReal :=
  if ¬ p.amd_smi_available then (false, p)
  else
    match get_current_partition_mode p with
    | (cur, p1) =>
      if cur.1 = some mode.value then
        (true, { p1 with compute_mode := some mode })
      else
        let p2 := { p1 with device :=
          { p1.device with log := p1.device.log ++ ["set-compute " ++ mode.value] } }
        if p2.device.set_ok then
          (true, { p2 with
            device := { p2.device with compute := some mode.value },
            compute_mode := some mode })
        else
          match cur.1 with
          | some c =>
            match parseComputeMode c with
            | some m => (true, { p2 with compute_mode := some m })
            | none => (false, p2)
          | none => (false, p2)

/-- `set_memory_partition_mode` (rocm_partitioner_real.py lines 244-310):
the NPS4/CPX compatibility check, then the same
already-in-mode/set/fall-back ladder. -/
def set_memory_partition_mode (p : ROCmPartitionerReal)
    (mode : MemoryPartitionMode) : Bool × ROCmPartitionerReal :=
  if ¬ p.amd_smi_available then (false, p)
  else if mode = MemoryPartitionMode.NPS4 ∧
      p.compute_mode ≠ some ComputePartitionMode.CPX then (false, p)
  else
    match get_current_partition_mode p with
    | (cur, p1) =>
      if cur.2 = some mode.value then
        (true, { p1 with memory_mode := some mode })
      else
        let p2 := { p1 with device :=
          { p1.device with log := p1.device.log ++ ["set-memory " ++ mode.value] } }
        if p2.device.set_ok then
          (true, { p2 with
            device := { p2.device with memory := some mode.value },
            memory_mode := some mode })
        else
          match cur.2 with
          | some c =>
            match parseMemoryMode c with
            | some m => (true, { p2 with memory_mode := some m })
            | none => (false, p2)
          | none => (false, p2)

/-- `ROCmPartitionerReal.initialize` (rocm_partitioner_real.py lines
312-413): refuse when already initialized; set both modes; look up the
GPU; derive the partition count from the compute mode and the
per-partition capacity from the memory mode; create the partitions. -/
def initializeReal (p : ROCmPartitionerReal) (gpu_name : String)
    (compute_mode : ComputePartitionMode) (memory_mode : MemoryPartitionMode) :
    Bool × ROCmPartitionerReal :=
  if p.initialized then (false, p)
  else if ¬ p.amd_smi_available then (false, p)
  else
    match set_compute_partition_mode p compute_mode with
    | (false, p1) => (false, p1)
    | (true, p1) =>
      match set_memory_partition_mode p1 memory_mode with
      | (false, p2) => (false, p2)
      | (true, p2) =>
        match get_gpu_spec p2.sizing_config gpu_name with
        | none => (false, p2)
        | some gpu_spec =>
          match (match compute_mode with
                 | ComputePartitionMode.CPX => some 8
                 | ComputePartitionMode.SPX => some 1
                 | ComputePartitionMode.TPX => none) with
          | none => (false, p2)
          | some num_partitions =>
            let memory_per_partition : ℚ :=
              match memory_mode with
              | MemoryPartitionMode.NPS4 =>
                gpu_spec.total_memory_gb / num_partitions
              | MemoryPartitionMode.NPS1 =>
                match compute_mode with
                | ComputePartitionMode.CPX =>
                  gpu_spec.total_memory_gb / num_partitions
                | _ => gpu_spec.total_memory_gb
            let newParts := (List.range num_partitions).foldl
              (fun acc i => assocInsert acc i
                { partition_id := i
                  xcd_id := if compute_mode = ComputePartitionMode.CPX
                            then some i else none
                  size_bytes := pyInt (memory_per_partition * GiB)
                  allocated_bytes := 0
                  models := []
                  is_active := true })
              p.partitions
            (true, { p2 with partitions := newParts, initialized := true })

/-- In-place mutation of the partition stored at a key (the Python
`partition = self.partitions[partition_id]; ...mutate partition...`). -/
def updatePartition (l : List (Nat × MemoryPartition)) (pid : Nat)
    (g : MemoryPartition → MemoryPartition) : List (Nat × MemoryPartition) :=
  l.map fun kv => if kv.1 = pid then (kv.1, g kv.2) else kv

/-- `ROCmPartitionerReal.allocate_model` (rocm_partitioner_real.py lines
438-487): check the fit against the estimate at the REQUESTED precision,
then append the model and add its size. -/
def allocate_model (p : ROCmPartitionerReal) (model_id : String)
    (partition_id : Nat) (precision : String) :
    (Bool × Option String) × ROCmPartitionerReal :=
  if ¬ p.initialized then ((false, some "Partitioner not initialized"), p)
  else
    match p.partitions.lookup partition_id with
    | none => ((false, some "Partition does not exist"), p)
    | some partition =>
      let model_size := estimate_model_size p.sizing_config model_id precision
      let model_size_bytes := pyInt (model_size * GiB)
      if model_size_bytes > partition.size_bytes - partition.allocated_bytes then
        ((false, some "Insufficient memory"), p)
      else
        let newParts := updatePartition p.partitions partition_id fun part =>
          { part with
            models := part.models ++ [model_id]
            allocated_bytes := part.allocated_bytes + model_size_bytes }
        ((true, none), { p with partitions := newParts })

/-- `ROCmPartitionerReal.get_partition_info` (rocm_partitioner_real.py
lines 489-491). -/
def get_partition_info (p : ROCmPartitionerReal) (partition_id : Nat) :
    Option MemoryPartition :=
  p.partitions.lookup partition_id

/-- `ROCmPartitionerReal.deallocate_model` (rocm_partitioner_real.py
lines 493-532).  Note line 522: the freed size is recomputed by
`estimate_model_size(model_id)` with the DEFAULT precision (`fp16`), not
the precision the model was allocated with. -/
def deallocate_model (p : ROCmPartitionerReal) (model_id : String)
    (partition_id : Nat) : Bool × ROCmPartitionerReal :=
  match p.partitions.lookup partition_id with
  | none => (false, p)
  | some partition =>
    if model_id ∈ partition.models then
      let model_size := estimate_model_size p.sizing_config model_id "fp16"
      let model_size_bytes := pyInt (model_size * GiB)
      let newParts := updatePartition p.partitions partition_id fun part =>
        { part with
          models := part.models.erase model_id
          allocated_bytes := part.allocated_bytes - model_size_bytes }
      (true, { p with partitions := newParts })
    else (false, p)

/-- `ROCmPartitionerReal.get_available_partitions`
(rocm_partitioner_real.py lines 621-641): the active partitions whose
free bytes reach the configured `min_partition_gb` (default 8), in
stored (insertion) order; it takes no minimum-size argument. -/
def get_available_partitions (p : ROCmPartitionerReal) : List Nat :=
  (p.partitions.filter fun kv =>
    kv.2.is_active && decide
      (((kv.2.size_bytes - kv.2.allocated_bytes : Int) : ℚ) ≥
        (p.sizing_config.partition_config.min_partition_gb.getD 8) * GiB)).map
    fun kv => kv.1

/-- One entry of the utilization report: the percentage
`allocated / size * 100` (rocm_partitioner_real.py line 655). -/
def utilEntry (kv : Nat × MemoryPartition) : Nat × ℚ :=
  (kv.1,
   if kv.2.size_bytes > 0 then
     (kv.2.allocated_bytes : ℚ) / (kv.2.size_bytes : ℚ) * 100
   else 0)

/-- `ROCmPartitionerReal.get_partition_utilization`
(rocm_partitioner_real.py lines 643-659). -/
def get_partition_utilization (p : ROCmPartitionerReal) : List (Nat × ℚ) :=
  p.partitions.map utilEntry

/-- The spec's `availablePartitions(min-bytes)` ordering (spec §4.2):
descending free bytes, ties by ascending partition id.  Stated as a
second definition, following the spec's words, to compare with the
code's `get_available_partitions`. -/
def insertSpecOrder (x : Nat × Int) : List (Nat × Int) → List (Nat × Int)
  | [] => [x]
  | y :: ys =>
    if x.2 > y.2 ∨ (x.2 = y.2 ∧ x.1 < y.1) then x :: y :: ys
    else y :: insertSpecOrder x ys

/-- Sort by the spec's order (insertion sort over the total order
(free desc, id asc)). -/
def sortSpecOrder (l : List (Nat × Int)) : List (Nat × Int) :=
  l.foldr insertSpecOrder []

/-- The spec's `availablePartitions(min-bytes)` (spec §4.2), following
the spec's words: the subset whose free bytes are at least `min_bytes`,
ordered by descending free bytes with ties broken by ascending id. -/
def availablePartitionsSpec (min_bytes : Int)
    (parts : List (Nat × MemoryPartition)) : List Nat :=
  (sortSpecOrder ((parts.filter fun kv =>
      decide (kv.2.size_bytes - kv.2.allocated_bytes ≥ min_bytes)).map
    fun kv => (kv.1, kv.2.size_bytes - kv.2.allocated_bytes))).map
    fun kv => kv.1

/-- `ModelStatus` enum (model_scheduler.py lines 33-39). -/
inductive ModelStatus where
  | pending
  | scheduled
  | running
  | stopped
  | failed
deriving DecidableEq, Repr

/-- `ModelInstance` dataclass (model_scheduler.py lines 42-49). -/
structure ModelInstance where
  model_id : String
  partition_id : Nat
  status : ModelStatus
  memory_allocated_gb : ℚ
  priority : Int
deriving DecidableEq, Repr

/-- `ModelScheduler` state (model_scheduler.py lines 62-111), over the
real partitioner (the `hasattr` dispatch of lines 152-160 and 228-236
takes the `allocate_model`-with-precision and `get_available_partitions`
branches for it). -/
structure ModelScheduler where
  sizing_config : ModelSizingConfig
  models : List (String × ModelInstance)
  partition_assignments : List (Nat × List String)
  partitioner : ROCmPartitionerReal
deriving DecidableEq, Repr

/-- `(partition.size_bytes - partition.allocated_bytes) / (1024 ** 3)`
(model_scheduler.py lines 220-222 and 243-245). -/
def availGB (partition : MemoryPartition) : ℚ :=
  ((partition.size_bytes - partition.allocated_bytes : Int) : ℚ) / GiB

/-- Python's stable `list.sort(key=available, reverse=True)`
(model_scheduler.py line 248): insertion sort, descending by available
space, equal keys keeping their original (ascending id) order. -/
def insertByAvailDesc (x : Nat × ℚ) : List (Nat × ℚ) → List (Nat × ℚ)
  | [] => [x]
  | y :: ys => if y.2 ≤ x.2 then x :: y :: ys else y :: insertByAvailDesc x ys

/-- Stable descending sort by available space. -/
def sortByAvailDesc (l : List (Nat × ℚ)) : List (Nat × ℚ) :=
  l.foldr insertByAvailDesc []

/-- `ModelScheduler._find_suitable_partition` (model_scheduler.py lines
194-255): the preferred partition when it fits, else the largest-free
partition that fits among `get_available_partitions`. -/
def _find_suitable_partition (s : ModelScheduler) (model_id : String)
    (preferred_partition : Option Nat) (precision : String) : Option Nat :=
  let model_size := estimate_model_size s.sizing_config model_id precision
  let preferredHit : Option Nat :=
    match preferred_partition with
    | some pid =>
      match get_partition_info s.partitioner pid with
      | some partition => if model_size ≤ availGB partition then some pid else none
      | none => none
    | none => none
  match preferredHit with
  | some pid => some pid
  | none =>
    let partition_sizes := (get_available_partitions s.partitioner).filterMap
      fun pid => (get_partition_info s.partitioner pid).map
        fun partition => (pid, availGB partition)
    ((sortByAvailDesc partition_sizes).find? fun x =>
      decide (model_size ≤ x.2)).map fun x => x.1

/-- The `if partition_id not in ...: [] ; append` update of
model_scheduler.py lines 183-185. -/
def appendAssign (l : List (Nat × List String)) (pid : Nat) (mid : String) :
    List (Nat × List String) :=
  match l.lookup pid with
  | some _ => l.map fun kv => if kv.1 = pid then (kv.1, kv.2 ++ [mid]) else kv
  | none => l ++ [(pid, [mid])]

/-- The guarded `remove` of model_scheduler.py lines 281-283. -/
def removeAssign (l : List (Nat × List String)) (pid : Nat) (mid : String) :
    List (Nat × List String) :=
  l.map fun kv => if kv.1 = pid then (kv.1, kv.2.erase mid) else kv

/-- The body of `schedule_model` after the already-scheduled check
(model_scheduler.py lines 140-192): find a partition, allocate on the
partitioner, record the instance and the assignment. -/
def scheduleFresh (s : ModelScheduler) (model_id : String) (priority : Int)
    (preferred_partition : Option Nat) (precision : String) :
    (Bool × Option Nat × Option String) × ModelScheduler :=
  match _find_suitable_partition s model_id preferred_partition precision with
  | none => ((false, none, some "No suitable partition available"), s)
  | some partition_id =>
    match allocate_model s.partitioner model_id partition_id precision with
    | ((false, err), p2) => ((false, none, err), { s with partitioner := p2 })
    | ((true, _), p2) =>
      let model_size := estimate_model_size s.sizing_config model_id precision
      ((true, some partition_id, none),
       { s with
         partitioner := p2
         models := assocInsert s.models model_id
           { model_id := model_id
             partition_id := partition_id
             status := ModelStatus.scheduled
             memory_allocated_gb := model_size
             priority := priority }
         partition_assignments :=
           appendAssign s.partition_assignments partition_id model_id })

/-- `ModelScheduler.schedule_model` (model_scheduler.py lines 113-192).
The early return of lines 132-138 fires only for the RUNNING and
SCHEDULED statuses; any other existing status falls through to a fresh
placement. -/
def schedule_model (s : ModelScheduler) (model_id : String) (priority : Int)
    (preferred_partition : Option Nat) (precision : String) :
    (Bool × Option Nat × Option String) × ModelScheduler :=
  match s.models.lookup model_id with
  | some inst =>
    if inst.status = ModelStatus.running then
      ((true, some inst.partition_id, none), s)
    else if inst.status = ModelStatus.scheduled then
      ((true, some inst.partition_id, some "Already scheduled"), s)
    else
      scheduleFresh s model_id priority preferred_partition precision
  | none => scheduleFresh s model_id priority preferred_partition precision

/-- `ModelScheduler.unschedule_model` (model_scheduler.py lines
257-289). -/
def unschedule_model (s : ModelScheduler) (model_id : String) :
    Bool × ModelScheduler :=
  match s.models.lookup model_id with
  | none => (false, s)
  | some inst =>
    match deallocate_model s.partitioner model_id inst.partition_id with
    | (false, p2) => (false, { s with partitioner := p2 })
    | (true, p2) =>
      (true,
       { s with
         partitioner := p2
         partition_assignments :=
           removeAssign s.partition_assignments inst.partition_id model_id
         models := s.models.filter fun kv => kv.1 != model_id })

/-! Fixtures for the partitioner and scheduler claims. -/

/-- Fixture model id. -/
def mName : String := "m"

/-- The fp16 precision string (the Python default argument). -/
def pFp16 : String := "fp16"

/-- The int8 precision string. -/
def pInt8 : String := "int8"

/-- Fixture GPU name. -/
def gpuMI300X : String := "MI300X"

/-- Fixture sizing configuration: one model with the per-precision table
documented in model_sizing.py line 22 ({fp16: 20, int8: 13, int4: 9}),
one MI300X GPU spec, defaults for the partition config. -/
def sizingFix : ModelSizingConfig :=
  { models := [(mName,
      { memory_gb := 20
        precision_memory := some [(pFp16, 20), (pInt8, 13), ("int4", 9)] })]
    gpu_specs := [(gpuMI300X, { total_memory_gb := 192, compute_units := 304 })]
    partition_config := {} }

/-- Fixture controller already in CPX/NPS4 with succeeding commands. -/
def deviceFix : DeviceController :=
  { compute := some "CPX", memory := some "NPS4", set_ok := true, log := [] }

/-- A partition fixture. -/
def partMk (pid : Nat) (size alloc : Int) (ms : List String) : MemoryPartition :=
  { partition_id := pid, xcd_id := some pid, size_bytes := size,
    allocated_bytes := alloc, models := ms }

/-- A fresh, not-yet-initialized partitioner on the fixture device. -/
def freshPart : ROCmPartitionerReal :=
  { gpu_id := 0, sizing_config := sizingFix, partitions := []
    initialized := false, compute_mode := none, memory_mode := none
    amd_smi_available := true, device := deviceFix }

/-- An initialized partitioner with one empty 24 GiB partition. -/
def partC4 : ROCmPartitionerReal :=
  { freshPart with
    initialized := true
    compute_mode := some ComputePartitionMode.CPX
    memory_mode := some MemoryPartitionMode.NPS4
    partitions := [(0, partMk 0 25769803776 0 [])] }

/-- An empty scheduler over `partC4`. -/
def schedC4 : ModelScheduler :=
  { sizing_config := sizingFix, models := [], partition_assignments := []
    partitioner := partC4 }

/-- An initialized partitioner with one 48 GiB partition holding `m`
(20 GiB allocated). -/
def partC5 : ROCmPartitionerReal :=
  { freshPart with
    initialized := true
    compute_mode := some ComputePartitionMode.CPX
    memory_mode := some MemoryPartitionMode.NPS4
    partitions := [(0, partMk 0 51539607552 21474836480 [mName])] }

/-- The instance of `m` in STOPPED status. -/
def instStopped : ModelInstance :=
  { model_id := mName, partition_id := 0, status := ModelStatus.stopped,
    memory_allocated_gb := 20, priority := 0 }

/-- The instance of `m` in RUNNING status. -/
def instRunning : ModelInstance :=
  { model_id := mName, partition_id := 0, status := ModelStatus.running,
    memory_allocated_gb := 20, priority := 0 }

/-- A scheduler holding `m` in STOPPED status on partition 0. -/
def schedC5 : ModelScheduler :=
  { sizing_config := sizingFix, models := [(mName, instStopped)]
    partition_assignments := [(0, [mName])], partitioner := partC5 }

/-- A scheduler holding `m` in RUNNING status on partition 0. -/
def schedC5run : ModelScheduler :=
  { sizing_config := sizingFix, models := [(mName, instRunning)]
    partition_assignments := [(0, [mName])], partitioner := partC5 }

/-- Two 24 GiB partitions: partition 0 has 10 GiB allocated (14 GiB
free), partition 1 is empty (24 GiB free). -/
def partC7 : ROCmPartitionerReal :=
  { freshPart with
    initialized := true
    compute_mode := some ComputePartitionMode.CPX
    memory_mode := some MemoryPartitionMode.NPS4
    partitions := [(0, partMk 0 25769803776 10737418240 [])
                  , (1, partMk 1 25769803776 0 [])] }

/-- 8 GiB in bytes, the default `min_partition_gb` expressed as the
spec's `min-bytes` argument. -/
def minBytesC7 : Int := 8589934592

/-- One 192 GiB partition with a 20 GiB model resident. -/
def part192 : ROCmPartitionerReal :=
  { freshPart with
    initialized := true
    compute_mode := some ComputePartitionMode.SPX
    memory_mode := some MemoryPartitionMode.NPS1
    partitions := [(0, partMk 0 206158430208 21474836480 [mName])] }

/-- `schedC4` after scheduling `m` at int8: 13 GiB allocated. -/
def schedC4i8 : ModelScheduler :=
  { sizing_config := sizingFix
    models := [(mName,
      { model_id := mName, partition_id := 0,
        status := ModelStatus.scheduled, memory_allocated_gb := 13,
        priority := 0 })]
    partition_assignments := [(0, [mName])]
    partitioner := { freshPart with
      initialized := true
      compute_mode := some ComputePartitionMode.CPX
      memory_mode := some MemoryPartitionMode.NPS4
      partitions := [(0, partMk 0 25769803776 13958643712 [mName])] } }

/-- `schedC4i8` after unscheduling `m`: the fp16 size (20 GiB) was freed
although the int8 size (13 GiB) had been allocated. -/
def schedC4i8out : ModelScheduler :=
  { schedC4i8 with
    models := []
    partition_assignments := [(0, [])]
    partitioner := { schedC4i8.partitioner with
      partitions := [(0, partMk 0 25769803776 (-7516192768) [])] } }

end Runtime

end AIM

namespace AIM

namespace Guardrails

/-- The `check_request` loop never turns `allowed` back on. -/
theorem requestStep_allowed_false (svc : GuardrailService) (s : CheckState)
    (p : GuardrailPolicy) (h : s.allowed = false) :
    (requestStep svc s p).allowed = false := by
  unfold requestStep
  repeat' first
    | split
    | (dsimp only)
  all_goals exact h

/-- `allowed = false` is preserved by the whole `check_request` loop. -/
theorem foldl_requestStep_allowed_false (svc : GuardrailService) :
    ∀ (ps : List GuardrailPolicy) (s : CheckState), s.allowed = false →
      (List.foldl (requestStep svc) s ps).allowed = false := by
  intro ps
  induction ps with
  | nil => intro s h; exact h
  | cons p ps ih =>
    intro s h
    exact ih _ (requestStep_allowed_false svc s p h)

/-- If one `check_request` iteration records a failing invocation under a
blocking policy, the invocation either predates the step or the step
turns `allowed` off. -/
theorem requestStep_block_mem (svc : GuardrailService) (s : CheckState)
    (p : GuardrailPolicy) (inv : Invocation) (r : GuardrailResult)
    (hmem : inv ∈ (requestStep svc s p).invocations)
    (hact : inv.policy.action = GuardrailAction.block)
    (hout : inv.output = some r) (hfail : r.passed = false) :
    inv ∈ s.invocations ∨ (requestStep svc s p).allowed = false := by
  unfold requestStep at hmem ⊢
  by_cases hpre : svc.pre_filter p.guardrail_type
  · simp only [hpre, not_true_eq_false, if_false] at hmem ⊢
    cases hg : guardrailFor svc p with
    | none => simp only [hg] at hmem ⊢; exact Or.inl hmem
    | some g =>
      simp only [hg] at hmem ⊢
      cases hr : g s.content p.threshold with
      | none =>
        simp only [hr, List.mem_append, List.mem_singleton] at hmem ⊢
        rcases hmem with hmem | hmem
        · exact Or.inl hmem
        · rw [hmem] at hout; simp at hout
      | some r0 =>
        simp only [hr] at hmem ⊢
        cases hp : r0.passed with
        | true =>
          simp only [hp, if_true] at hmem ⊢
          simp only [List.mem_append, List.mem_singleton] at hmem
          rcases hmem with hmem | hmem
          · exact Or.inl hmem
          · rw [hmem] at hout
            simp only [Option.some.injEq] at hout
            rw [← hout] at hfail
            simp [hp] at hfail
        | false =>
          cases hactp : p.action with
          | block =>
            simp only [hactp, hp] at hmem ⊢
            simp at hmem ⊢
          | redact =>
            simp only [hactp, hp] at hmem ⊢
            cases hrc : r0.redacted_content with
            | none =>
              simp only [hrc] at hmem ⊢
              simp only [Bool.false_eq_true, if_false, List.mem_append,
                List.mem_singleton] at hmem
              rcases hmem with hmem | hmem
              · exact Or.inl hmem
              · rw [hmem] at hact; simp [hactp] at hact
            | some rc =>
              simp only [hrc] at hmem ⊢
              simp only [Bool.false_eq_true, if_false, List.mem_append,
                List.mem_singleton] at hmem
              rcases hmem with hmem | hmem
              · exact Or.inl hmem
              · rw [hmem] at hact; simp [hactp] at hact
          | allow =>
            simp only [hactp, hp] at hmem ⊢
            simp only [Bool.false_eq_true, if_false, List.mem_append,
              List.mem_singleton] at hmem
            rcases hmem with hmem | hmem
            · exact Or.inl hmem
            · rw [hmem] at hact; simp [hactp] at hact
          | allow_with_warning =>
            simp only [hactp, hp] at hmem ⊢
            simp only [Bool.false_eq_true, if_false, List.mem_append,
              List.mem_singleton] at hmem
            rcases hmem with hmem | hmem
            · exact Or.inl hmem
            · rw [hmem] at hact; simp [hactp] at hact
          | modify =>
            simp only [hactp, hp] at hmem ⊢
            simp only [Bool.false_eq_true, if_false, List.mem_append,
              List.mem_singleton] at hmem
            rcases hmem with hmem | hmem
            · exact Or.inl hmem
            · rw [hmem] at hact; simp [hactp] at hact
  · simp only [hpre, not_false_eq_true, if_true] at hmem ⊢
    exact Or.inl hmem

/-- The `check_response` loop never turns `allowed` back on. -/
theorem responseStep_allowed_false (svc : GuardrailService) (s : CheckState)
    (p : GuardrailPolicy) (h : s.allowed = false) :
    (responseStep svc s p).allowed = false := by
  unfold responseStep
  repeat' first
    | split
    | (dsimp only)
  all_goals exact h

/-- `allowed = false` is preserved by the whole `check_response` loop. -/
theorem foldl_responseStep_allowed_false (svc : GuardrailService) :
    ∀ (ps : List GuardrailPolicy) (s : CheckState), s.allowed = false →
      (List.foldl (responseStep svc) s ps).allowed = false := by
  intro ps
  induction ps with
  | nil => intro s h; exact h
  | cons p ps ih =>
    intro s h
    exact ih _ (responseStep_allowed_false svc s p h)

/-- If one `check_response` iteration records a failing invocation under a
blocking policy, the invocation either predates the step or the step turns
`allowed` off. -/
theorem responseStep_block_mem (svc : GuardrailService) (s : CheckState)
    (p : GuardrailPolicy) (inv : Invocation) (r : GuardrailResult)
    (hmem : inv ∈ (responseStep svc s p).invocations)
    (hact : inv.policy.action = GuardrailAction.block)
    (hout : inv.output = some r) (hfail : r.passed = false) :
    inv ∈ s.invocations ∨ (responseStep svc s p).allowed = false := by
  unfold responseStep at hmem ⊢
  by_cases hen : p.enabled
  case neg =>
    simp only [hen, not_false_eq_true, if_true] at hmem ⊢
    exact Or.inl hmem
  by_cases hpost : svc.post_filter p.guardrail_type
  case neg =>
    simp only [hen, hpost] at hmem ⊢
    simp at hmem ⊢
    exact Or.inl hmem
  by_cases hg1 : (guardrailFor svc p).isNone
  case pos =>
    simp only [hen, hpost, hg1] at hmem ⊢
    simp at hmem ⊢
    exact Or.inl hmem
  simp only [hen, hpost, hg1, Bool.false_eq_true, not_true_eq_false,
    if_false] at hmem ⊢
  cases hg : svc.guardrails p.guardrail_type with
  | none => simp only [hg] at hmem ⊢; exact Or.inl hmem
  | some g =>
    simp only [hg] at hmem ⊢
    cases hr : g s.content p.threshold with
    | none =>
      simp only [hr, List.mem_append, List.mem_singleton] at hmem ⊢
      rcases hmem with hmem | hmem
      · exact Or.inl hmem
      · rw [hmem] at hout; simp at hout
    | some r0 =>
      simp only [hr] at hmem ⊢
      cases hp : r0.passed with
      | true =>
        simp only [hp, if_true] at hmem ⊢
        simp only [List.mem_append, List.mem_singleton] at hmem
        rcases hmem with hmem | hmem
        · exact Or.inl hmem
        · rw [hmem] at hout
          simp only [Option.some.injEq] at hout
          rw [← hout] at hfail
          simp [hp] at hfail
      | false =>
        cases hactp : p.action with
        | block =>
          simp only [hactp, hp] at hmem ⊢
          simp at hmem ⊢
        | allow =>
          simp only [hactp, hp] at hmem ⊢
          simp only [Bool.false_eq_true, if_false, List.mem_append,
            List.mem_singleton] at hmem
          rcases hmem with hmem | hmem
          · exact Or.inl hmem
          · rw [hmem] at hact; simp [hactp] at hact
        | allow_with_warning =>
          simp only [hactp, hp] at hmem ⊢
          simp only [Bool.false_eq_true, if_false, List.mem_append,
            List.mem_singleton] at hmem
          rcases hmem with hmem | hmem
          · exact Or.inl hmem
          · rw [hmem] at hact; simp [hactp] at hact
        | redact =>
          simp only [hactp, hp] at hmem ⊢
          simp only [Bool.false_eq_true, if_false, List.mem_append,
            List.mem_singleton] at hmem
          rcases hmem with hmem | hmem
          · exact Or.inl hmem
          · rw [hmem] at hact; simp [hactp] at hact
        | modify =>
          simp only [hactp, hp] at hmem ⊢
          simp only [Bool.false_eq_true, if_false, List.mem_append,
            List.mem_singleton] at hmem
          rcases hmem with hmem | hmem
          · exact Or.inl hmem
          · rw [hmem] at hact; simp [hactp] at hact

/-- The `check_response` loop never changes the content it passes to
classifiers. -/
theorem responseStep_content (svc : GuardrailService) (s : CheckState)
    (p : GuardrailPolicy) : (responseStep svc s p).content = s.content := by
  unfold responseStep
  repeat' first
    | split
    | (dsimp only)

/-- Every invocation record added by one `check_response` iteration
carries the pre-step content. -/
theorem responseStep_inv_content (svc : GuardrailService) (s : CheckState)
    (p : GuardrailPolicy) (inv : Invocation)
    (hmem : inv ∈ (responseStep svc s p).invocations) :
    inv ∈ s.invocations ∨ inv.content = s.content := by
  unfold responseStep at hmem
  repeat' first
    | (split at hmem)
    | (dsimp only at hmem)
  all_goals first
    | exact Or.inl hmem
    | (simp only [List.mem_append, List.mem_singleton] at hmem
       rcases hmem with hmem | hmem
       · exact Or.inl hmem
       · rw [hmem]; exact Or.inr rfl)

/-- `traceOk` only looks at the content and the invocation trace. -/
theorem traceOk_of_eq (s1 s2 : CheckState) (h : traceOk s1)
    (hc : s2.content = s1.content) (hi : s2.invocations = s1.invocations) :
    traceOk s2 := by
  unfold traceOk at h ⊢
  rw [hc, hi]
  exact h

/-- Appending a new invocation record (with the matching content update)
preserves `traceOk`. -/
theorem traceOk_extend (s : CheckState) (h : traceOk s) (p : GuardrailPolicy)
    (out : Option GuardrailResult) (s2 : CheckState)
    (hc : s2.content = redactUpdate ⟨p, s.content, out⟩)
    (hi : s2.invocations = s.invocations ++ [⟨p, s.content, out⟩]) :
    traceOk s2 := by
  obtain ⟨hchain, hlast⟩ := h
  constructor
  · rw [hi, List.chain'_append]
    refine ⟨hchain, List.chain'_singleton _, ?_⟩
    intro x hx y hy
    simp only [List.head?_cons, Option.mem_def, Option.some.injEq] at hy
    subst hy
    exact hlast x hx
  · intro lastInv hl
    rw [hi, List.getLast?_concat] at hl
    simp only [Option.mem_def, Option.some.injEq] at hl
    subst hl
    exact hc

/-- One `check_request` iteration preserves the content-threading
invariant. -/
theorem requestStep_traceOk (svc : GuardrailService) (s : CheckState)
    (p : GuardrailPolicy) (h : traceOk s) : traceOk (requestStep svc s p) := by
  unfold requestStep
  by_cases hpre : svc.pre_filter p.guardrail_type
  case neg =>
    simp only [hpre, not_false_eq_true, if_true]
    exact h
  simp only [hpre, not_true_eq_false, if_false]
  cases hg : guardrailFor svc p with
  | none => simp only [hg]; exact h
  | some g =>
    simp only [hg]
    cases hr : g s.content p.threshold with
    | none =>
      simp only [hr]
      refine traceOk_extend s h p none _ ?_ ?_
      · rfl
      · rfl
    | some r0 =>
      simp only [hr]
      cases hp : r0.passed with
      | true =>
        simp only [hp, if_true]
        refine traceOk_extend s h p
          (some { r0 with guardrail_type := p.guardrail_type, action := p.action }) _ ?_ ?_
        · simp [redactUpdate, hp]
        · simp [hp]
      | false =>
        cases hactp : p.action with
        | block =>
          simp only [hactp, hp, Bool.false_eq_true, if_false]
          refine traceOk_extend s h p
            (some { r0 with guardrail_type := p.guardrail_type, action := p.action }) _ ?_ ?_
          · simp [redactUpdate, hp, hactp]
          · simp [hp, hactp]
        | redact =>
          simp only [hactp, hp, Bool.false_eq_true, if_false]
          cases hrc : r0.redacted_content with
          | none =>
            simp only [hrc]
            refine traceOk_extend s h p
              (some { r0 with guardrail_type := p.guardrail_type, action := p.action }) _ ?_ ?_
            · simp [redactUpdate, hp, hactp, hrc]
            · simp [hp, hactp, hrc]
          | some rc =>
            simp only [hrc]
            refine traceOk_extend s h p
              (some { r0 with guardrail_type := p.guardrail_type, action := p.action }) _ ?_ ?_
            · simp [redactUpdate, hp, hactp, hrc]
            · simp [hp, hactp, hrc]
        | allow =>
          simp only [hactp, hp, Bool.false_eq_true, if_false]
          refine traceOk_extend s h p
            (some { r0 with guardrail_type := p.guardrail_type, action := p.action }) _ ?_ ?_
          · simp [redactUpdate, hp, hactp]
          · simp [hp, hactp]
        | allow_with_warning =>
          simp only [hactp, hp, Bool.false_eq_true, if_false]
          refine traceOk_extend s h p
            (some { r0 with guardrail_type := p.guardrail_type, action := p.action }) _ ?_ ?_
          · simp [redactUpdate, hp, hactp]
          · simp [hp, hactp]
        | modify =>
          simp only [hactp, hp, Bool.false_eq_true, if_false]
          refine traceOk_extend s h p
            (some { r0 with guardrail_type := p.guardrail_type, action := p.action }) _ ?_ ?_
          · simp [redactUpdate, hp, hactp]
          · simp [hp, hactp]

/-- The whole `check_request` loop preserves the content-threading
invariant. -/
theorem foldl_requestStep_traceOk (svc : GuardrailService) :
    ∀ (ps : List GuardrailPolicy) (s : CheckState), traceOk s →
      traceOk (List.foldl (requestStep svc) s ps) := by
  intro ps
  induction ps with
  | nil => intro s h; exact h
  | cons p ps ih =>
    intro s h
    exact ih _ (requestStep_traceOk svc s p h)

/-- C1 (confirmed).  In both `check_request` and `check_response`, if any
invoked enabled policy whose action is `BLOCK` receives a classifier
result with `passed = false`, the returned `allowed` flag is `false`,
regardless of every other classifier's result (the statement is
universally quantified over the service, hence over all other
classifiers' behaviour). -/
theorem claim_C1_block_failure_forces_deny :
    (∀ (svc : GuardrailService) (prompt : String) (inv : Invocation)
        (r : GuardrailResult),
        inv ∈ (checkRequestRun svc prompt).invocations →
        inv.policy.action = GuardrailAction.block →
        inv.output = some r → r.passed = false →
        (check_request svc prompt).1 = false) ∧
    (∀ (svc : GuardrailService) (response : String) (inv : Invocation)
        (r : GuardrailResult),
        inv ∈ (checkResponseRun svc response).invocations →
        inv.policy.action = GuardrailAction.block →
        inv.output = some r → r.passed = false →
        (check_response svc response).1 = false) := by
  constructor
  · intro svc prompt inv r hmem hact hout hfail
    have main : ∀ (ps : List GuardrailPolicy) (s : CheckState),
        inv ∈ (List.foldl (requestStep svc) s ps).invocations →
        inv ∈ s.invocations ∨
          (List.foldl (requestStep svc) s ps).allowed = false := by
      intro ps
      induction ps with
      | nil => intro s hm; exact Or.inl hm
      | cons p ps ih =>
        intro s hm
        rcases ih (requestStep svc s p) hm with hin | hfalse
        · rcases requestStep_block_mem svc s p inv r hin hact hout hfail with h1 | h1
          · exact Or.inl h1
          · exact Or.inr (foldl_requestStep_allowed_false svc ps _ h1)
        · exact Or.inr hfalse
    rcases main (active_policies svc) ⟨prompt, true, [], []⟩ hmem with h1 | h1
    · simp at h1
    · exact h1
  · intro svc response inv r hmem hact hout hfail
    have main : ∀ (ps : List GuardrailPolicy) (s : CheckState),
        inv ∈ (List.foldl (responseStep svc) s ps).invocations →
        inv ∈ s.invocations ∨
          (List.foldl (responseStep svc) s ps).allowed = false := by
      intro ps
      induction ps with
      | nil => intro s hm; exact Or.inl hm
      | cons p ps ih =>
        intro s hm
        rcases ih (responseStep svc s p) hm with hin | hfalse
        · rcases responseStep_block_mem svc s p inv r hin hact hout hfail with h1 | h1
          · exact Or.inl h1
          · exact Or.inr (foldl_responseStep_allowed_false svc ps _ h1)
        · exact Or.inr hfalse
    rcases main svc.policies ⟨response, true, [], []⟩ hmem with h1 | h1
    · simp at h1
    · exact h1

/-- Witness for C1: in the fixture service a failing blocking toxicity
classifier runs next to a passing PII classifier, and both entry points
deny. -/
theorem claim_C1_witness :
    invToxFail ∈ (checkRequestRun svcBlock fixtureContent).invocations ∧
    (check_request svcBlock fixtureContent).1 = false ∧
    invToxFail ∈ (checkResponseRun svcBlock fixtureContent).invocations ∧
    (check_response svcBlock fixtureContent).1 = false :=
  ⟨by decide,
   claim_C1_block_failure_forces_deny.1 svcBlock fixtureContent invToxFail
     rToxFailAdj (by decide) (by decide) (by decide) (by decide),
   by decide,
   claim_C1_block_failure_forces_deny.2 svcBlock fixtureContent invToxFail
     rToxFailAdj (by decide) (by decide) (by decide) (by decide)⟩

/-- C2 (counterexample).  In `check_response` a firing redact PII policy
that supplies redacted content does NOT rewrite the content handed to the
next classifier: the second invocation still receives the original
response, refuting the claim for the `check_response` entry point. -/
theorem claim_C2_counterexample :
    ((checkResponseRun svcRedact fixtureContent).invocations.map
        fun i => i.content) = [fixtureContent, fixtureContent] ∧
    ((checkResponseRun svcRedact fixtureContent).invocations.map
        fun i => i.output) = [some rPiiRedactAdj, some rToxPassAdj] ∧
    rPiiRedactAdj.passed = false ∧
    rPiiRedactAdj.action = GuardrailAction.redact ∧
    rPiiRedactAdj.redacted_content = some redactedStr ∧
    fixtureContent ≠ redactedStr := by
  decide

/-- C2 (amended).  In `check_request` the content handed to each next
invoked classifier is the previous invocation's content updated by any
redaction it supplied (so after a redact policy fires, subsequent
classifiers see the rewritten content); in `check_response` the redact
action is not applied: every invoked classifier receives the original
response. -/
theorem claim_C2_amended :
    (∀ (svc : GuardrailService) (prompt : String),
        List.Chain' (fun a b => b.content = redactUpdate a)
          (checkRequestRun svc prompt).invocations) ∧
    (∀ (svc : GuardrailService) (response : String) (inv : Invocation),
        inv ∈ (checkResponseRun svc response).invocations →
        inv.content = response) := by
  constructor
  · intro svc prompt
    have h := foldl_requestStep_traceOk svc (active_policies svc)
      ⟨prompt, true, [], []⟩ ⟨List.chain'_nil, by simp⟩
    exact h.1
  · intro svc response inv hmem
    have main : ∀ (ps : List GuardrailPolicy) (s : CheckState),
        inv ∈ (List.foldl (responseStep svc) s ps).invocations →
        inv ∈ s.invocations ∨ inv.content = s.content := by
      intro ps
      induction ps with
      | nil => intro s hm; exact Or.inl hm
      | cons p ps ih =>
        intro s hm
        rcases ih (responseStep svc s p) hm with hin | hcont
        · exact responseStep_inv_content svc s p inv hin
        · exact Or.inr (hcont.trans (responseStep_content svc s p))
    rcases main svc.policies ⟨response, true, [], []⟩ hmem with h1 | h1
    · simp at h1
    · exact h1

/-- Witness for C2 (amended): on the fixture redact service the request
trace is redaction-chained, and the post-redaction response invocation
still carries the original content. -/
theorem claim_C2_witness :
    List.Chain' (fun a b => b.content = redactUpdate a)
      (checkRequestRun svcRedact fixtureContent).invocations ∧
    invToxAfterRedact.content = fixtureContent :=
  ⟨claim_C2_amended.1 svcRedact fixtureContent,
   claim_C2_amended.2 svcRedact fixtureContent invToxAfterRedact (by decide)⟩

end Guardrails

namespace Qos

/-- Erasing the ghost stamps commutes with `enqueue`: the stamped mirror
runs the `RequestQueue.enqueue` algorithm. -/
theorem eraseStampsQueue_enqueue (q : StampedQueue) (n : Nat) (r : Request) :
    eraseStampsQueue (q.enqueue (n, r)) = (eraseStampsQueue q).enqueue r := by
  unfold StampedQueue.enqueue RequestQueue.enqueue eraseStampsQueue
  cases hp : r.priority <;> simp

/-- Erasing the ghost stamps commutes with `dequeue`: the stamped mirror
runs the `RequestQueue.dequeue` algorithm. -/
theorem eraseStampsQueue_dequeue (q : StampedQueue) :
    (eraseStampsQueue q).dequeue =
      ((q.dequeue).1.map Prod.snd, eraseStampsQueue (q.dequeue).2) := by
  rcases q with ⟨hq, mq, lq⟩
  cases hq <;> cases mq <;> cases lq <;> rfl

/-- Dropping the head of a band keeps it well formed. -/
theorem bandInv_tail (c : Nat) (l : QoSLevel) (a : Nat × Request)
    (xs : List (Nat × Request)) (h : bandInv c l (a :: xs)) : bandInv c l xs :=
  ⟨(List.pairwise_cons.mp h.1).2, fun x hx => h.2 x (List.mem_cons_of_mem _ hx)⟩

/-- Band well-formedness is monotone in the counter bound. -/
theorem bandInv_mono (c c2 : Nat) (l : QoSLevel) (xs : List (Nat × Request))
    (hc : c ≤ c2) (h : bandInv c l xs) : bandInv c2 l xs :=
  ⟨h.1, fun x hx => ⟨(h.2 x hx).1, lt_of_lt_of_le (h.2 x hx).2 hc⟩⟩

/-- Appending a fresh element (stamped with the counter, of the band's
priority) keeps a band well formed under the bumped counter. -/
theorem bandInv_append (c : Nat) (l : QoSLevel) (xs : List (Nat × Request))
    (x : Nat × Request) (h : bandInv c l xs) (hl : x.2.priority = l)
    (hs : x.1 = c) : bandInv (c + 1) l (xs ++ [x]) := by
  constructor
  · rw [List.pairwise_append]
    refine ⟨h.1, List.pairwise_singleton _ _, ?_⟩
    intro a ha b hb
    simp only [List.mem_singleton] at hb
    subst hb
    rw [hs]
    exact (h.2 a ha).2
  · intro y hy
    rcases List.mem_append.mp hy with hy | hy
    · exact ⟨(h.2 y hy).1, Nat.lt_succ_of_lt (h.2 y hy).2⟩
    · simp only [List.mem_singleton] at hy
      subst hy
      exact ⟨hl, by rw [hs]; exact Nat.lt_succ_self c⟩

/-- One operation preserves the trace invariant. -/
theorem stepOp_queueInv (s : TraceState) (op : QOp) (h : queueInv s) :
    queueInv (stepOp s op) := by
  unfold queueInv at h ⊢
  obtain ⟨hh, hm, hl⟩ := h
  cases op with
  | enq r =>
    unfold stepOp StampedQueue.enqueue
    cases hp : r.priority <;> simp only [hp]
    · exact ⟨bandInv_mono _ _ _ _ (Nat.le_succ _) hh,
             bandInv_mono _ _ _ _ (Nat.le_succ _) hm,
             bandInv_append _ _ _ _ hl hp rfl⟩
    · exact ⟨bandInv_mono _ _ _ _ (Nat.le_succ _) hh,
             bandInv_append _ _ _ _ hm hp rfl,
             bandInv_mono _ _ _ _ (Nat.le_succ _) hl⟩
    · exact ⟨bandInv_append _ _ _ _ hh hp rfl,
             bandInv_mono _ _ _ _ (Nat.le_succ _) hm,
             bandInv_mono _ _ _ _ (Nat.le_succ _) hl⟩
  | deq =>
    unfold stepOp StampedQueue.dequeue
    rcases s with ⟨⟨hq, mq, lq⟩, c⟩
    cases hq with
    | cons a rest => exact ⟨bandInv_tail _ _ _ _ hh, hm, hl⟩
    | nil =>
      cases mq with
      | cons a rest => exact ⟨hh, bandInv_tail _ _ _ _ hm, hl⟩
      | nil =>
        cases lq with
        | cons a rest => exact ⟨hh, hm, bandInv_tail _ _ _ _ hl⟩
        | nil => exact ⟨hh, hm, hl⟩

/-- Every reachable trace state is well formed. -/
theorem runOps_queueInv (ops : List QOp) : queueInv (runOps ops) := by
  have main : ∀ (l : List QOp) (s : TraceState), queueInv s →
      queueInv (List.foldl stepOp s l) := by
    intro l
    induction l with
    | nil => intro s h; exact h
    | cons op l ih => intro s h; exact ih _ (stepOp_queueInv s op h)
  refine main ops _ ⟨?_, ?_, ?_⟩ <;>
    exact ⟨List.Pairwise.nil, by simp⟩

/-- On a well-formed state, `dequeue` returns the waiting request that is
minimal in the lexicographic order (priority rank first, arrival stamp
second). -/
theorem dequeue_min (s : TraceState) (h : queueInv s) (x : Nat × Request)
    (q2 : StampedQueue) (hd : s.q.dequeue = (some x, q2)) :
    x ∈ waiting s.q ∧
    ∀ y ∈ waiting s.q,
      rank x.2.priority < rank y.2.priority ∨
      (x.2.priority = y.2.priority ∧ x.1 ≤ y.1) := by
  obtain ⟨hh, hm, hl⟩ := h
  rcases s with ⟨⟨hq, mq, lq⟩, c⟩
  dsimp only at hh hm hl hd ⊢
  unfold StampedQueue.dequeue at hd
  cases hq with
  | cons a rest =>
    simp only [Prod.mk.injEq, Option.some.injEq] at hd
    obtain ⟨rfl, -⟩ := hd
    constructor
    · exact List.mem_append.mpr (Or.inl (List.mem_append.mpr (Or.inl (List.mem_cons_self a rest))))
    · intro y hy
      have hax : a.2.priority = QoSLevel.high := (hh.2 a (List.mem_cons_self a rest)).1
      unfold waiting at hy
      rcases List.mem_append.mp hy with hy1 | hy2
      · rcases List.mem_append.mp hy1 with hy1 | hy1
        · -- same band: FIFO by stamps
          right
          refine ⟨by rw [hax, (hh.2 y hy1).1], ?_⟩
          rcases List.mem_cons.mp hy1 with rfl | hy1
          · exact le_refl _
          · exact le_of_lt ((List.pairwise_cons.mp hh.1).1 y hy1)
        · left
          rw [hax, (hm.2 y hy1).1]
          simp [rank]
      · left
        rw [hax, (hl.2 y hy2).1]
        simp [rank]
  | nil =>
    cases mq with
    | cons a rest =>
      simp only [Prod.mk.injEq, Option.some.injEq] at hd
      obtain ⟨rfl, -⟩ := hd
      constructor
      · exact List.mem_append.mpr (Or.inl (List.mem_append.mpr (Or.inr (List.mem_cons_self a rest))))
      · intro y hy
        have hax : a.2.priority = QoSLevel.medium := (hm.2 a (List.mem_cons_self a rest)).1
        unfold waiting at hy
        rcases List.mem_append.mp hy with hy1 | hy2
        · rcases List.mem_append.mp hy1 with hy1 | hy1
          · exact absurd hy1 (List.not_mem_nil y)
          · right
            refine ⟨by rw [hax, (hm.2 y hy1).1], ?_⟩
            rcases List.mem_cons.mp hy1 with rfl | hy1
            · exact le_refl _
            · exact le_of_lt ((List.pairwise_cons.mp hm.1).1 y hy1)
        · left
          rw [hax, (hl.2 y hy2).1]
          simp [rank]
    | nil =>
      cases lq with
      | cons a rest =>
        simp only [Prod.mk.injEq, Option.some.injEq] at hd
        obtain ⟨rfl, -⟩ := hd
        constructor
        · exact List.mem_append.mpr (Or.inr (List.mem_cons_self a rest))
        · intro y hy
          have hax : a.2.priority = QoSLevel.low := (hl.2 a (List.mem_cons_self a rest)).1
          unfold waiting at hy
          rcases List.mem_append.mp hy with hy1 | hy2
          · rcases List.mem_append.mp hy1 with hy1 | hy1 <;>
              exact absurd hy1 (List.not_mem_nil y)
          · right
            refine ⟨by rw [hax, (hl.2 y hy2).1], ?_⟩
            rcases List.mem_cons.mp hy2 with rfl | hy2
            · exact le_refl _
            · exact le_of_lt ((List.pairwise_cons.mp hl.1).1 y hy2)
      | nil => simp [StampedQueue.dequeue] at hd

/-- C9 (confirmed).  For any interleaving of enqueues and dequeues from
the empty queue, each `dequeue` result is the waiting request minimal in
the lexicographic order (priority rank `high < medium < low` first,
arrival order second): a stable merge of the three FIFO bands.  Arrival
order is made observable by the ghost stamps of `runOps`;
`eraseStampsQueue_enqueue` / `eraseStampsQueue_dequeue` prove the stamped
queue runs exactly the `RequestQueue` algorithm. -/
theorem claim_C9_priority_dequeue (ops : List QOp) (x : Nat × Request)
    (q2 : StampedQueue) (hd : (runOps ops).q.dequeue = (some x, q2)) :
    x ∈ waiting (runOps ops).q ∧
    ∀ y ∈ waiting (runOps ops).q,
      rank x.2.priority < rank y.2.priority ∨
      (x.2.priority = y.2.priority ∧ x.1 ≤ y.1) :=
  dequeue_min _ (runOps_queueInv ops) x q2 hd

/-- Witness for C9: after enqueueing a low- then a high-priority request,
`dequeue` returns the later-arrived high-priority one, ranked before the
waiting low-priority one. -/
theorem claim_C9_witness :
    (1, rHighFix) ∈ waiting (runOps opsFix).q ∧
    (rank (1, rHighFix).2.priority < rank (0, rLowFix).2.priority ∨
     ((1, rHighFix).2.priority = (0, rLowFix).2.priority ∧
      (1, rHighFix).1 ≤ (0, rLowFix).1)) := by
  have h := claim_C9_priority_dequeue opsFix (1, rHighFix)
    ⟨[], [], [(0, rLowFix)]⟩ (by decide)
  exact ⟨h.1, h.2 (0, rLowFix) (by decide)⟩

/-- C3 (counterexample).  With 101 requests already queued (strictly more
than the cap) and a request whose model has no registered resource limit,
`submit_request` accepts and enqueues instead of rejecting, refuting the
claim that every request is rejected above the saturation cap. -/
theorem claim_C3_counterexample :
    satManager.request_queue.size = 101 ∧
    (QoSManager.submit_request satManager rHighFix).1 = true ∧
    (QoSManager.submit_request satManager rHighFix).2.request_queue.size = 102 := by
  decide

/-- C3 (amended).  `submit_request` rejects (returning `false` and
leaving the state unchanged) exactly when the request's model has a
registered resource limit and the total queue length across the three
priority bands exceeds the hard-coded cap 100; in every other case it
enqueues the request and returns `true`. -/
theorem claim_C3_amended (m : QoSManager) (r : Request) :
    QoSManager.submit_request m r =
      if (m.resource_limits.lookup r.model_id).isSome ∧
          m.request_queue.size > 100 then
        (false, m)
      else
        (true, { m with request_queue := m.request_queue.enqueue r }) := by
  unfold QoSManager.submit_request
  by_cases h1 : (m.resource_limits.lookup r.model_id).isSome
  · by_cases h2 : m.request_queue.size > 100
    · simp [h1, h2]
    · simp [h1, h2]
  · simp [h1]

end Qos

namespace Traffic

/-- C10 (confirmed).  Whenever `check_rate_limit` denies a request — for
a blocked identity, over-large context, over-large upload, disallowed
geo, outside business hours, or a rate window at its limit — no timestamp
is appended to any identity's minute/hour/day counter ring: every ring of
the post-call state is either unchanged or merely purged of entries older
than its window's horizon. -/
theorem claim_C10_denied_no_append (st : RateLimiter) (user_id : String)
    (api_key : Option String) (context_length : Nat) (upload_size_mb : ℚ)
    (geo : Option String) (now : ℚ) (current_hour : Nat)
    (hdeny : ((check_rate_limit st user_id api_key context_length
        upload_size_mb geo now current_hour).1).1 = false)
    (id : String) (w : Window) :
    ((check_rate_limit st user_id api_key context_length upload_size_mb geo
        now current_hour).2).request_counts id w = st.request_counts id w ∨
    ((check_rate_limit st user_id api_key context_length upload_size_mb geo
        now current_hour).2).request_counts id w =
      purgeRing now w (st.request_counts id w) := by
  unfold check_rate_limit at hdeny ⊢
  split_ifs at hdeny ⊢
  all_goals try exact Or.inl rfl
  all_goals try (cases hdeny)
  all_goals
    by_cases hid : id = identifierOf user_id api_key
  all_goals simp [clean_old_entries, hid]

/-- Witness for C10: a blocked identity is denied and its minute ring is
untouched. -/
theorem claim_C10_witness :
    ((check_rate_limit blockedLimiter uid1 none 0 0 none 0 12).1).1 = false ∧
    (((check_rate_limit blockedLimiter uid1 none 0 0 none 0 12).2).request_counts
        uid1 Window.minute = blockedLimiter.request_counts uid1 Window.minute ∨
     ((check_rate_limit blockedLimiter uid1 none 0 0 none 0 12).2).request_counts
        uid1 Window.minute =
       purgeRing 0 Window.minute (blockedLimiter.request_counts uid1 Window.minute)) :=
  ⟨by decide,
   claim_C10_denied_no_append blockedLimiter uid1 none 0 0 none 0 12
     (by decide) uid1 Window.minute⟩

end Traffic

end AIM

namespace AIM

namespace Runtime

/-- `pyInt` on an integer-valued rational is that integer. -/
theorem pyInt_intCast (n : ℤ) : pyInt ((n : ℚ)) = n := by
  simp [pyInt, Rat.num_intCast, Rat.den_intCast, Int.tdiv_one]

/-- A successful `initialize` leaves the partitioner initialized. -/
theorem initializeReal_snd_initialized (p : ROCmPartitionerReal)
    (gpu_name : String) (cm : ComputePartitionMode) (mm : MemoryPartitionMode) :
    (initializeReal p gpu_name cm mm).1 = true →
    (initializeReal p gpu_name cm mm).2.initialized = true := by
  unfold initializeReal
  repeat' split
  all_goals intro h
  all_goals first
    | rfl
    | simp at h

/-- A second `initialize` on an initialized partitioner fails and leaves
the whole state (device controller included) untouched. -/
theorem initializeReal_of_initialized (p : ROCmPartitionerReal)
    (gpu_name : String) (cm : ComputePartitionMode) (mm : MemoryPartitionMode)
    (h : p.initialized = true) :
    initializeReal p gpu_name cm mm = (false, p) := by
  unfold initializeReal
  rw [h]
  simp

/-- C6 (counterexample).  On a fresh partitioner whose device already
reports the requested CPX/NPS4 modes, the first `initialize` succeeds,
and the immediate second `initialize` with the same arguments returns an
error (`False`), not ok — refuting the claimed idempotence. -/
theorem claim_C6_counterexample :
    (initializeReal freshPart gpuMI300X ComputePartitionMode.CPX
        MemoryPartitionMode.NPS4).1 = true ∧
    (initializeReal (initializeReal freshPart gpuMI300X ComputePartitionMode.CPX
        MemoryPartitionMode.NPS4).2 gpuMI300X ComputePartitionMode.CPX
        MemoryPartitionMode.NPS4).1 = false := by
  have h1 : (initializeReal freshPart gpuMI300X ComputePartitionMode.CPX
      MemoryPartitionMode.NPS4).1 = true := by
    simp +decide [initializeReal, set_compute_partition_mode,
      set_memory_partition_mode, get_current_partition_mode, get_gpu_spec,
      pyToUpper, freshPart, deviceFix, sizingFix, gpuMI300X,
      ComputePartitionMode.value, MemoryPartitionMode.value, List.lookup]
  refine ⟨h1, ?_⟩
  rw [initializeReal_of_initialized _ _ _ _
    (initializeReal_snd_initialized _ _ _ _ h1)]

/-- C6 (amended).  A second `initialize` after a successful one returns
an error (`False`, with a logged warning), and has no effect at all: the
partitioner state is returned unchanged and the device controller is not
touched (not even by a current-mode query).  The
already-in-requested-mode idempotence the spec describes lives one level
down, in `set_compute_partition_mode` / `set_memory_partition_mode`,
and is exercised only on the first `initialize`. -/
theorem claim_C6_amended (p : ROCmPartitionerReal) (gpu_name : String)
    (cm : ComputePartitionMode) (mm : MemoryPartitionMode)
    (h : p.initialized = true) :
    initializeReal p gpu_name cm mm = (false, p) :=
  initializeReal_of_initialized p gpu_name cm mm h

/-- Witness for C6 (amended): re-initializing the initialized fixture
partitioner fails and leaves it unchanged. -/
theorem claim_C6_witness :
    partC4.initialized = true ∧
    initializeReal partC4 gpuMI300X ComputePartitionMode.CPX
      MemoryPartitionMode.NPS4 = (false, partC4) :=
  ⟨rfl, claim_C6_amended partC4 gpuMI300X ComputePartitionMode.CPX
    MemoryPartitionMode.NPS4 rfl⟩

/-- Entries of a list with strictly increasing first components that
share a first component are equal. -/
theorem eq_of_mem_of_sorted_keys {β : Type} :
    ∀ (l : List (Nat × β)) (x y : Nat × β),
      List.Pairwise (fun a b : Nat × β => a.1 < b.1) l →
      x ∈ l → y ∈ l → x.1 = y.1 → x = y := by
  intro l
  induction l with
  | nil => intro x y _ hx; exact absurd hx (List.not_mem_nil x)
  | cons a l ih =>
    intro x y hp hx hy hk
    have hhead := (List.pairwise_cons.mp hp).1
    have htail := (List.pairwise_cons.mp hp).2
    rcases List.mem_cons.mp hx with hxa | hxl
    · rcases List.mem_cons.mp hy with hya | hyl
      · rw [hxa, hya]
      · exfalso
        rw [hxa] at hk
        exact Nat.ne_of_lt (hhead y hyl) hk
    · rcases List.mem_cons.mp hy with hya | hyl
      · exfalso
        rw [hya] at hk
        exact Nat.ne_of_lt (hhead x hxl) hk.symm
      · exact ih x y htail hxl hyl hk

/-- C7 (counterexample).  On two active partitions where partition 0 has
14 GiB free and partition 1 has 24 GiB free, the code returns `[0, 1]`
(stored order) while the spec's ordering — descending free bytes, ties by
ascending id — demands `[1, 0]`; and the code takes no minimum-size
argument at all (the subset is cut at the configured
`min_partition_gb`). -/
theorem claim_C7_counterexample :
    get_available_partitions partC7 = [0, 1] ∧
    availablePartitionsSpec minBytesC7 partC7.partitions = [1, 0] ∧
    ([0, 1] : List Nat) ≠ [1, 0] := by
  refine ⟨?_, by decide, by decide⟩
  norm_num [get_available_partitions, partC7, freshPart, partMk, sizingFix,
    deviceFix, GiB, List.filter]

/-- C7 (amended).  `get_available_partitions` takes no minimum-size
argument: it returns exactly the ids of the active partitions whose free
bytes are at least the configured `min_partition_gb` (default 8 GiB),
and — when the stored partition ids are strictly increasing, as
`initialize` creates them — the returned ids are in ascending id order,
not ordered by descending free bytes. -/
theorem claim_C7_amended (p : ROCmPartitionerReal)
    (hkeys : List.Pairwise (fun a b : Nat × MemoryPartition => a.1 < b.1)
      p.partitions) :
    (∀ kv ∈ p.partitions,
      (kv.1 ∈ get_available_partitions p ↔
        kv.2.is_active = true ∧
        ((kv.2.size_bytes - kv.2.allocated_bytes : Int) : ℚ) ≥
          (p.sizing_config.partition_config.min_partition_gb.getD 8) * GiB)) ∧
    List.Pairwise (fun a b : Nat => a < b) (get_available_partitions p) := by
  constructor
  · intro kv hkv
    constructor
    · intro hmem
      unfold get_available_partitions at hmem
      rcases List.mem_map.mp hmem with ⟨kv2, hkv2, hk⟩
      rcases List.mem_filter.mp hkv2 with ⟨hkv2mem, hkv2f⟩
      have : kv2 = kv := eq_of_mem_of_sorted_keys _ kv2 kv hkeys hkv2mem hkv hk
      subst this
      simp only [Bool.and_eq_true, decide_eq_true_eq] at hkv2f
      exact hkv2f
    · intro hcond
      unfold get_available_partitions
      refine List.mem_map.mpr ⟨kv, List.mem_filter.mpr ⟨hkv, ?_⟩, rfl⟩
      simp only [Bool.and_eq_true, decide_eq_true_eq]
      exact hcond
  · unfold get_available_partitions
    have hsub : (p.partitions.filter fun kv =>
        kv.2.is_active && decide
          (((kv.2.size_bytes - kv.2.allocated_bytes : Int) : ℚ) ≥
            (p.sizing_config.partition_config.min_partition_gb.getD 8) * GiB)).Sublist
        p.partitions := List.filter_sublist _
    exact (List.Pairwise.sublist (hsub.map fun kv => kv.1)
      (List.pairwise_map.mpr hkeys))

/-- Witness for C7 (amended): on the fixture state the returned ids are
in ascending order. -/
theorem claim_C7_witness :
    List.Pairwise (fun a b : Nat => a < b) (get_available_partitions partC7) :=
  (claim_C7_amended partC7 (by decide)).2

/-- C8 (counterexample).  The utilization query reports a PERCENTAGE:
for a 20 GiB model on a 192 GiB partition it reports 125/12 ≈ 10.4,
which is neither in [0, 1] nor within 0.01 of 0.10. -/
theorem claim_C8_counterexample :
    get_partition_utilization part192 = [(0, 125 / 12)] ∧
    ¬ ((125 / 12 : ℚ) ≤ 1) ∧
    ¬ (|(125 / 12 : ℚ) - 1 / 10| ≤ 1 / 100) := by
  refine ⟨?_, by norm_num, ?_⟩
  · norm_num [get_partition_utilization, utilEntry, part192, partMk,
      freshPart, sizingFix, deviceFix]
  · rw [abs_le]
    norm_num

/-- C8 (amended).  `get_partition_utilization` maps each partition id to
the percentage `allocated / capacity × 100`: under the allocation
invariant `0 ≤ allocated ≤ capacity` every reported value lies in
[0, 100], and the spec's 20 GiB-on-192 GiB example reports 125/12 ≈ 10.4
(percent), i.e. 10.4 ± 1 rather than 0.10 ± 0.01. -/
theorem claim_C8_amended :
    (∀ (p : ROCmPartitionerReal),
      (∀ kv ∈ p.partitions,
        0 ≤ kv.2.allocated_bytes ∧ kv.2.allocated_bytes ≤ kv.2.size_bytes) →
      ∀ entry ∈ get_partition_utilization p, 0 ≤ entry.2 ∧ entry.2 ≤ 100) ∧
    get_partition_utilization part192 = [(0, 125 / 12)] ∧
    |(125 / 12 : ℚ) - 104 / 10| ≤ 1 := by
  refine ⟨?_, ?_, by rw [abs_le]; constructor <;> norm_num⟩
  · intro p hinv entry hentry
    unfold get_partition_utilization at hentry
    rcases List.mem_map.mp hentry with ⟨kv, hkv, rfl⟩
    obtain ⟨h0, hle⟩ := hinv kv hkv
    unfold utilEntry
    by_cases hpos : kv.2.size_bytes > 0
    · have hszq : (0 : ℚ) < (kv.2.size_bytes : ℚ) := by exact_mod_cast hpos
      have h0q : (0 : ℚ) ≤ (kv.2.allocated_bytes : ℚ) := by exact_mod_cast h0
      have hleq : (kv.2.allocated_bytes : ℚ) ≤ (kv.2.size_bytes : ℚ) := by
        exact_mod_cast hle
      rw [if_pos hpos]
      constructor
      · exact mul_nonneg (div_nonneg h0q (le_of_lt hszq)) (by norm_num)
      · have hdiv : (kv.2.allocated_bytes : ℚ) / (kv.2.size_bytes : ℚ) ≤ 1 :=
          (div_le_one hszq).mpr hleq
        calc (kv.2.allocated_bytes : ℚ) / (kv.2.size_bytes : ℚ) * 100
            ≤ 1 * 100 := by
              exact mul_le_mul_of_nonneg_right hdiv (by norm_num)
          _ = 100 := by norm_num
    · rw [if_neg hpos]
      norm_num
  · norm_num [get_partition_utilization, utilEntry, part192, partMk,
      freshPart, sizingFix, deviceFix]

/-- Witness for C8 (amended): the fixture utilization entry lies in
[0, 100]. -/
theorem claim_C8_witness :
    0 ≤ ((0, (125 / 12 : ℚ)) : Nat × ℚ).2 ∧
    ((0, (125 / 12 : ℚ)) : Nat × ℚ).2 ≤ 100 :=
  claim_C8_amended.1 part192 (by decide) (0, 125 / 12)
    (by rw [claim_C8_amended.2.1]; exact List.mem_singleton.mpr rfl)

end Runtime

end AIM

namespace AIM

namespace Runtime

/-- Looking up an overwritten key yields the new value. -/
theorem lookup_map_overwrite {α β : Type} [DecidableEq α] [BEq α]
    [LawfulBEq α] (l : List (α × β)) (k : α) (v : β)
    (h : ∃ kv ∈ l, kv.1 = k) :
    (l.map fun kv => if kv.1 = k then (k, v) else kv).lookup k = some v := by
  induction l with
  | nil => simp at h
  | cons kv l ih =>
    simp only [List.map_cons]
    by_cases hk : kv.1 = k
    · rw [if_pos hk]
      have hbeq2 : (k == kv.1) = true := by simp [hk]
      simp [List.lookup, hbeq2]
    · rw [if_neg hk]
      have hbeq : (k == kv.1) = false := by
        simp only [beq_eq_false_iff_ne]
        exact fun hh => hk hh.symm
      simp only [List.lookup, hbeq]
      apply ih
      rcases h with ⟨kv2, hkv2, hkv2k⟩
      rcases List.mem_cons.mp hkv2 with hkv2 | hkv2
      · exact absurd (hkv2 ▸ hkv2k) hk
      · exact ⟨kv2, hkv2, hkv2k⟩

/-- A key borne by no entry is not found. -/
theorem lookup_eq_none_of_no_key {α β : Type} [BEq α] [LawfulBEq α]
    (l : List (α × β)) (k : α) (h : ∀ kv ∈ l, kv.1 ≠ k) :
    l.lookup k = none := by
  induction l with
  | nil => rfl
  | cons kv l ih =>
    have hbeq : (k == kv.1) = false := by
      simp only [beq_eq_false_iff_ne]
      exact fun hh => h kv (List.mem_cons_self kv l) hh.symm
    simp only [List.lookup, hbeq]
    exact ih fun kv2 hkv2 => h kv2 (List.mem_cons_of_mem kv hkv2)

/-- Appending a fresh key at the end makes it found. -/
theorem lookup_append_single {α β : Type} [BEq α] [LawfulBEq α]
    (l : List (α × β)) (k : α) (v : β) (h : l.lookup k = none) :
    (l ++ [(k, v)]).lookup k = some v := by
  induction l with
  | nil => simp [List.lookup]
  | cons kv l ih =>
    rw [List.cons_append]
    cases hbeq : k == kv.1 with
    | true => simp [List.lookup, hbeq] at h
    | false =>
      simp only [List.lookup, hbeq] at h ⊢
      exact ih h

/-- `assocInsert` followed by a lookup of the same key yields the
inserted value. -/
theorem lookup_assocInsert_self {α β : Type} [DecidableEq α] [BEq α]
    [LawfulBEq α] (l : List (α × β)) (k : α) (v : β) :
    (assocInsert l k v).lookup k = some v := by
  unfold assocInsert
  by_cases h : (l.any fun kv => decide (kv.1 = k)) = true
  · rw [if_pos h]
    apply lookup_map_overwrite
    simpa using List.any_eq_true.mp h
  · rw [if_neg h]
    apply lookup_append_single
    apply lookup_eq_none_of_no_key
    intro kv hkv
    intro hk
    exact h (List.any_eq_true.mpr ⟨kv, hkv, by simp [hk]⟩)

/-- Lookup under `updatePartition` at the updated key. -/
theorem lookup_updatePartition_self (l : List (Nat × MemoryPartition))
    (pid : Nat) (g : MemoryPartition → MemoryPartition) :
    (updatePartition l pid g).lookup pid = (l.lookup pid).map g := by
  induction l with
  | nil => rfl
  | cons kv l ih =>
    unfold updatePartition at ih ⊢
    simp only [List.map_cons]
    by_cases hk : kv.1 = pid
    · rw [if_pos hk]
      simp [List.lookup, hk]
    · rw [if_neg hk]
      have hbeq : (pid == kv.1) = false := by
        simp only [beq_eq_false_iff_ne]
        exact fun hh => hk hh.symm
      simp [List.lookup, hbeq, ih]

/-- Two updates at the same key compose. -/
theorem updatePartition_comp (l : List (Nat × MemoryPartition)) (pid : Nat)
    (g1 g2 : MemoryPartition → MemoryPartition) :
    updatePartition (updatePartition l pid g1) pid g2 =
      updatePartition l pid fun part => g2 (g1 part) := by
  induction l with
  | nil => rfl
  | cons kv l ih =>
    unfold updatePartition at ih ⊢
    by_cases hk : kv.1 = pid
    · simp [hk, ih]
    · simp [hk, ih]

/-- The utilization report ignores an update that preserves every
partition's capacity and allocation (such as an allocate immediately
compensated by a deallocate of the same size). -/
theorem util_map_updatePartition (l : List (Nat × MemoryPartition))
    (pid : Nat) (g : MemoryPartition → MemoryPartition)
    (hsz : ∀ part, (g part).size_bytes = part.size_bytes)
    (hal : ∀ part, (g part).allocated_bytes = part.allocated_bytes) :
    (updatePartition l pid g).map utilEntry = l.map utilEntry := by
  induction l with
  | nil => rfl
  | cons kv l ih =>
    unfold updatePartition at ih ⊢
    simp only [List.map_cons]
    by_cases hk : kv.1 = pid
    · rw [if_pos hk]
      rw [ih]
      have : utilEntry (kv.1, g kv.2) = utilEntry kv := by
        unfold utilEntry
        rw [hsz, hal]
      rw [this]
    · rw [if_neg hk, ih]

/-- C4 (amended).  For a model not yet in the scheduler, a successful
`schedule_model` followed by `unschedule_model` restores the
partitioner's utilization map bit-for-bit PROVIDED the size estimate at
the scheduled precision equals the estimate at the default precision
(`fp16`) that `deallocate_model` recomputes — in particular whenever
`precision = "fp16"`. -/
theorem claim_C4_amended (s : ModelScheduler) (mid : String) (prio : Int)
    (pref : Option Nat) (precision : String) (pid : Nat) (msg : Option String)
    (s2 : ModelScheduler)
    (hnotin : s.models.lookup mid = none)
    (hsz : estimate_model_size s.partitioner.sizing_config mid precision =
           estimate_model_size s.partitioner.sizing_config mid pFp16)
    (hrun : schedule_model s mid prio pref precision = ((true, some pid, msg), s2)) :
    (unschedule_model s2 mid).1 = true ∧
    get_partition_utilization (unschedule_model s2 mid).2.partitioner =
      get_partition_utilization s.partitioner := by
  simp only [pFp16] at hsz
  unfold schedule_model at hrun
  rw [hnotin] at hrun
  unfold scheduleFresh at hrun
  cases hfind : _find_suitable_partition s mid pref precision with
  | none => rw [hfind] at hrun; simp at hrun
  | some pid2 =>
    rw [hfind] at hrun
    unfold allocate_model at hrun
    cases hinitp : s.partitioner.initialized with
    | false => simp [hinitp] at hrun
    | true =>
      rw [hinitp] at hrun
      simp only [not_true_eq_false, if_false] at hrun
      cases hlk : s.partitioner.partitions.lookup pid2 with
      | none => rw [hlk] at hrun; simp at hrun
      | some partition =>
        rw [hlk] at hrun
        dsimp only at hrun
        by_cases hfit :
            pyInt (estimate_model_size s.partitioner.sizing_config mid precision * GiB) >
              partition.size_bytes - partition.allocated_bytes
        · rw [if_pos hfit] at hrun
          simp at hrun
        · rw [if_neg hfit] at hrun
          simp only [Prod.mk.injEq] at hrun
          obtain ⟨⟨-, hpid, -⟩, hs2⟩ := hrun
          subst hs2
          unfold unschedule_model
          rw [lookup_assocInsert_self]
          try dsimp only
          unfold deallocate_model
          try dsimp only
          rw [lookup_updatePartition_self, hlk]
          simp only [Option.map_some']
          try dsimp only
          rw [if_pos (by simp)]
          try dsimp only
          constructor
          · rfl
          · unfold get_partition_utilization
            try dsimp only
            rw [updatePartition_comp]
            apply util_map_updatePartition
            · intro part
              rfl
            · intro part
              try dsimp only
              rw [hsz]
              omega

/-- C4 (counterexample).  With the per-precision sizing table
{fp16: 20, int8: 13}, scheduling `m` at int8 on an empty 24 GiB
partition and immediately unscheduling it does NOT restore the
utilization map: `deallocate_model` frees the fp16 size (20 GiB) instead
of the allocated int8 size (13 GiB), driving the partition's allocation
to −7 GiB and its reported utilization from 0 to −175/6. -/
theorem claim_C4_counterexample :
    (schedule_model schedC4 mName 0 none pInt8).1.1 = true ∧
    (unschedule_model (schedule_model schedC4 mName 0 none pInt8).2 mName).1 = true ∧
    get_partition_utilization
        (unschedule_model (schedule_model schedC4 mName 0 none pInt8).2
          mName).2.partitioner ≠
      get_partition_utilization schedC4.partitioner := by
  have h1 : schedule_model schedC4 mName 0 none pInt8 =
      ((true, some 0, none), schedC4i8) := by
    simp +decide [schedule_model, scheduleFresh, _find_suitable_partition,
      estimate_model_size, get_model_size, get_available_partitions,
      get_partition_info, availGB, sortByAvailDesc, insertByAvailDesc,
      allocate_model, assocInsert, appendAssign, updatePartition,
      schedC4, schedC4i8, partC4, freshPart, sizingFix, deviceFix, partMk,
      mName, pInt8, pFp16, gpuMI300X,
      List.lookup, List.find?, List.filter, List.filterMap]
    norm_num [GiB, pyInt, Rat.num_ofNat, Rat.den_ofNat, Int.tdiv_one]
    norm_num [List.find?]
  have h2 : unschedule_model schedC4i8 mName =
      (true, schedC4i8out) := by
    simp +decide [unschedule_model, deallocate_model, estimate_model_size,
      get_model_size, updatePartition, removeAssign, schedC4i8, schedC4i8out,
      partMk, sizingFix, mName, pInt8, pFp16, List.lookup, List.find?,
      List.filter]
    norm_num [GiB, pyInt, Rat.num_ofNat, Rat.den_ofNat, Int.tdiv_one]
  rw [h1]
  dsimp only
  rw [h2]
  refine ⟨rfl, rfl, ?_⟩
  norm_num [get_partition_utilization, utilEntry, schedC4i8out, schedC4,
    partC4, freshPart, partMk, sizingFix, deviceFix]

/-- Witness for C4 (amended): the fp16 round trip on the fixture
scheduler restores the utilization map. -/
theorem claim_C4_witness :
    (unschedule_model (schedule_model schedC4 mName 0 none pFp16).2 mName).1 = true ∧
    get_partition_utilization
        (unschedule_model (schedule_model schedC4 mName 0 none pFp16).2
          mName).2.partitioner =
      get_partition_utilization schedC4.partitioner := by
  have h1 : (schedule_model schedC4 mName 0 none pFp16).1 = (true, some 0, none) := by
    simp +decide [schedule_model, scheduleFresh, _find_suitable_partition,
      estimate_model_size, get_model_size, get_available_partitions,
      get_partition_info, availGB, sortByAvailDesc, insertByAvailDesc,
      allocate_model, assocInsert, appendAssign, updatePartition,
      schedC4, partC4, freshPart, sizingFix, deviceFix, partMk,
      mName, pInt8, pFp16, gpuMI300X,
      List.lookup, List.find?, List.filter, List.filterMap]
    norm_num [GiB, pyInt, Rat.num_ofNat, Rat.den_ofNat, Int.tdiv_one]
    norm_num [List.find?]
  exact claim_C4_amended schedC4 mName 0 none pFp16 0 none _ rfl rfl
    (by rw [← h1])

/-- C5 (amended).  `schedule_model` short-circuits only when the model's
existing instance is RUNNING or SCHEDULED: then it returns success with
the existing partition id and leaves the whole scheduler state (the
partitioner included) unchanged.  Any other existing status (PENDING,
STOPPED, FAILED) falls through to a fresh placement. -/
theorem claim_C5_amended (s : ModelScheduler) (mid : String) (prio : Int)
    (pref : Option Nat) (precision : String) (inst : ModelInstance)
    (hin : s.models.lookup mid = some inst)
    (hst : inst.status = ModelStatus.running ∨
           inst.status = ModelStatus.scheduled) :
    (schedule_model s mid prio pref precision).1.1 = true ∧
    (schedule_model s mid prio pref precision).1.2.1 = some inst.partition_id ∧
    (schedule_model s mid prio pref precision).2 = s := by
  unfold schedule_model
  rw [hin]
  rcases hst with h | h
  · simp [h]
  · simp [h]

/-- C5 (counterexample).  With `m` present in the scheduler map in
STOPPED status (20 GiB resident on a 48 GiB partition),
`schedule_model` does NOT reuse the instance: it performs a second
allocation on the partitioner, raising the partition's allocation from
20 GiB to 40 GiB and duplicating `m` in the resident list — refuting the
claimed idempotence "in any status". -/
theorem claim_C5_counterexample :
    schedC5.models.lookup mName = some instStopped ∧
    (schedule_model schedC5 mName 0 none pFp16).1.1 = true ∧
    ((schedule_model schedC5 mName 0 none pFp16).2.partitioner.partitions.lookup 0).map
        (fun part => part.allocated_bytes) = some 42949672960 ∧
    (schedC5.partitioner.partitions.lookup 0).map
        (fun part => part.allocated_bytes) = some 21474836480 := by
  refine ⟨by decide, ?_, ?_, by decide⟩
  all_goals
    simp +decide [schedule_model, scheduleFresh, _find_suitable_partition,
      estimate_model_size, get_model_size, get_available_partitions,
      get_partition_info, availGB, sortByAvailDesc, insertByAvailDesc,
      allocate_model, assocInsert, appendAssign, updatePartition,
      schedC5, partC5, instStopped, freshPart, sizingFix, deviceFix, partMk,
      mName, pInt8, pFp16, gpuMI300X,
      List.lookup, List.find?, List.filter, List.filterMap]
  all_goals
    norm_num [GiB, pyInt, Rat.num_ofNat, Rat.den_ofNat, Int.tdiv_one]
  all_goals
    norm_num [List.find?]

/-- Witness for C5 (amended): re-scheduling the RUNNING fixture instance
returns success with its partition and changes nothing. -/
theorem claim_C5_witness :
    (schedule_model schedC5run mName 0 none pFp16).1.1 = true ∧
    (schedule_model schedC5run mName 0 none pFp16).1.2.1 =
      some instRunning.partition_id ∧
    (schedule_model schedC5run mName 0 none pFp16).2 = schedC5run :=
  claim_C5_amended schedC5run mName 0 none pFp16 instRunning (by decide)
    (Or.inl rfl)

end Runtime

end AIM
